import Mathlib

/-!
Neko rollback simulation: input sampling, player-character update, function map.

A shallow embedding of

* `AsteroidDebugApp::Update` (`comp_net/src/02_rollback_simulation/rollback_engine.cpp`),
* `PlayerCharacterManager::FixedUpdate` and `PlayerCharacterManager::operator=`
  (`comp_net/src/asteroid/player_character.cpp`),

together with models of the collaborators whose code is not part of the
sources (the function map, the input-frame buffer, the snapshot store and the
client prediction engine).  Floating-point quantities are embedded as rationals:
`FixedUpdate` computes with exact arithmetic, `FixedUpdateFloat` with the arithmetic of
a float format given as a parameter.
-/

set_option autoImplicit false

namespace Neko

/-! ## Keyboard sampling in `AsteroidDebugApp::Update` -/

/-- The keyboard state returned by `SDL_GetKeyboardState`: one `Uint8` per scancode. -/
abbrev KeyboardState := Nat → Nat

/-- SDL scancode of the A key. -/
def SDL_SCANCODE_A : Nat := 4
/-- SDL scancode of the D key. -/
def SDL_SCANCODE_D : Nat := 7
/-- SDL scancode of the S key. -/
def SDL_SCANCODE_S : Nat := 22
/-- SDL scancode of the W key. -/
def SDL_SCANCODE_W : Nat := 26
/-- SDL scancode of the space bar. -/
def SDL_SCANCODE_SPACE : Nat := 44
/-- SDL scancode of the right arrow. -/
def SDL_SCANCODE_RIGHT : Nat := 79
/-- SDL scancode of the left arrow. -/
def SDL_SCANCODE_LEFT : Nat := 80
/-- SDL scancode of the down arrow. -/
def SDL_SCANCODE_DOWN : Nat := 81
/-- SDL scancode of the up arrow. -/
def SDL_SCANCODE_UP : Nat := 82
/-- SDL scancode of the left control key. -/
def SDL_SCANCODE_LCTRL : Nat := 224

/-- The enumerators of `asteroid::PlayerInput`.  The header that declares them is not
part of the sources, so their values are parameters of the embedding. -/
structure PlayerInputFlags where
  LEFT : Nat
  RIGHT : Nat
  UP : Nat
  DOWN : Nat
  SHOOT : Nat
  deriving DecidableEq, Repr

/-- One statement `clientInput = clientInput | (keys[sc] ? flag : 0u)`; the result is
stored back into a `net::PlayerInput` of `w` bits. -/
def orKey (w : Nat) (keys : KeyboardState) (acc sc flag : Nat) : Nat :=
  (acc ||| (if keys sc ≠ 0 then flag else 0)) % 2 ^ w

/-- The value `clientInput1` of `AsteroidDebugApp::Update` (lines 39-44). -/
def clientInput1 (w : Nat) (fl : PlayerInputFlags) (keys : KeyboardState) : Nat :=
  let c := 0
  let c := orKey w keys c SDL_SCANCODE_LEFT fl.LEFT
  let c := orKey w keys c SDL_SCANCODE_RIGHT fl.RIGHT
  let c := orKey w keys c SDL_SCANCODE_UP fl.UP
  let c := orKey w keys c SDL_SCANCODE_DOWN fl.DOWN
  let c := orKey w keys c SDL_SCANCODE_LCTRL fl.SHOOT
  c

/-- The value `clientInput2` of `AsteroidDebugApp::Update` (lines 48-53). -/
def clientInput2 (w : Nat) (fl : PlayerInputFlags) (keys : KeyboardState) : Nat :=
  let c := 0
  let c := orKey w keys c SDL_SCANCODE_A fl.LEFT
  let c := orKey w keys c SDL_SCANCODE_D fl.RIGHT
  let c := orKey w keys c SDL_SCANCODE_W fl.UP
  let c := orKey w keys c SDL_SCANCODE_S fl.DOWN
  let c := orKey w keys c SDL_SCANCODE_SPACE fl.SHOOT
  c

/-- The five flags are the single bits `iL, iR, iU, iD, iS`, pairwise distinct and
inside the `w` bits of a `net::PlayerInput`. -/
def DistinctSingleBits (w : Nat) (fl : PlayerInputFlags) (iL iR iU iD iS : Nat) : Prop :=
  fl.LEFT = 2 ^ iL ∧ fl.RIGHT = 2 ^ iR ∧ fl.UP = 2 ^ iU ∧ fl.DOWN = 2 ^ iD ∧
    fl.SHOOT = 2 ^ iS ∧ [iL, iR, iU, iD, iS].Nodup ∧ ∀ i ∈ [iL, iR, iU, iD, iS], i < w

/-- The flag values of the asteroid game: UP, DOWN, LEFT, RIGHT, SHOOT on bits 0 to 4. -/
def asteroidFlags : PlayerInputFlags :=
  { LEFT := 4, RIGHT := 8, UP := 1, DOWN := 2, SHOOT := 16 }

/-- A keyboard on which exactly right arrow, left control, A and W are held. -/
def sampleKeys : KeyboardState := fun sc =>
  if sc = SDL_SCANCODE_RIGHT ∨ sc = SDL_SCANCODE_LCTRL ∨ sc = SDL_SCANCODE_A ∨
      sc = SDL_SCANCODE_W then 1 else 0

/-! ## The asteroid world: bodies, player characters, managers -/

/-- A two-dimensional vector (`Vec2f`), over exact rationals. -/
structure Vec2f where
  x : ℚ
  y : ℚ
  deriving DecidableEq

/-- A physics body of the asteroid game; `rotation` is a `degree_t`. -/
structure Body where
  position : Vec2f
  velocity : Vec2f
  rotation : ℚ
  deriving DecidableEq

/-- The player-character component. -/
structure PlayerCharacter where
  input : Nat
  playerNumber : Nat
  invincibilityTime : ℚ
  deriving DecidableEq

/-- An entity index. -/
abbrev Entity := Nat

/-- The entity manager as `FixedUpdate` sees it: one mask per entity.  Its code is not
part of the sources; `FixedUpdate` only reads it. -/
structure EntityManager where
  entityMaskArray_ : List Nat
  deriving DecidableEq

/-- The number of entities. -/
def EntityManager.GetEntitiesSize (em : EntityManager) : Nat :=
  em.entityMaskArray_.length

/-- Whether the mask of `entity` contains every bit of `componentType`. -/
def EntityManager.HasComponent (em : EntityManager) (entity : Entity) (componentType : Nat) :
    Bool :=
  match em.entityMaskArray_[entity]? with
  | some m => (m &&& componentType) == componentType
  | none => false

/-- The physics manager as `FixedUpdate` sees it: one body slot per entity. -/
structure PhysicsManager where
  bodies_ : List Body
  deriving DecidableEq

/-- The body of `entity`; `none` is an access outside the body array. -/
def PhysicsManager.GetBody (pm : PhysicsManager) (entity : Entity) : Option Body :=
  pm.bodies_[entity]?

/-- Store `body` in the slot of `entity`; `none` is an access outside the body array. -/
def PhysicsManager.SetBody (pm : PhysicsManager) (entity : Entity) (body : Body) :
    Option PhysicsManager :=
  if entity < pm.bodies_.length then some { bodies_ := pm.bodies_.set entity body } else none

/-- The player-character manager.  The three managers it is bound to are references
(`std::reference_wrapper`), embedded as the identity of the object referred to. -/
structure PlayerCharacterManager where
  entityManager_ : Nat
  physicsManager_ : Nat
  gameManager_ : Nat
  components_ : List PlayerCharacter
  deriving DecidableEq

/-- The component of `entity`; `none` is an access outside the component array. -/
def PlayerCharacterManager.GetComponent (self : PlayerCharacterManager) (entity : Entity) :
    Option PlayerCharacter :=
  self.components_[entity]?

/-- Store `c` in the slot of `entity`; `none` is an access outside the component array. -/
def PlayerCharacterManager.SetComponent (self : PlayerCharacterManager) (entity : Entity)
    (c : PlayerCharacter) : Option PlayerCharacterManager :=
  if entity < self.components_.length then
    some { self with components_ := self.components_.set entity c }
  else none

/-- The part of the world that `FixedUpdate` writes: the bodies of the physics manager
and the manager's own components. -/
abbrev SimState := PhysicsManager × PlayerCharacterManager

/-- The flip of lines 59-84: the new local `playerBody` and the physics manager after the
`SetBody` of the branch taken. -/
def flipCharacter (pm : PhysicsManager) (playerEntity : Entity) (playerNumber : Nat)
    (left right : Bool) (playerBody : Body) : Option (Body × PhysicsManager) :=
  if playerNumber = 1 then
    if playerBody.rotation = 0 ∧ right = true then
      let b : Body := { playerBody with rotation := 180 }
      (pm.SetBody playerEntity b).map fun pm => (b, pm)
    else if playerBody.rotation = 180 ∧ left = true then
      let b : Body := { playerBody with rotation := 0 }
      (pm.SetBody playerEntity b).map fun pm => (b, pm)
    else some (playerBody, pm)
  else
    if playerBody.rotation = 180 ∧ left = true then
      let b : Body := { playerBody with rotation := 0 }
      (pm.SetBody playerEntity b).map fun pm => (b, pm)
    else if playerBody.rotation = 0 ∧ right = true then
      let b : Body := { playerBody with rotation := 180 }
      (pm.SetBody playerEntity b).map fun pm => (b, pm)
    else some (playerBody, pm)

/-- One iteration of the loop of `PlayerCharacterManager::FixedUpdate` (lines 44-96), with
the float operations computed exactly; `fixedUpdateEntityFloat` takes them from a float
arithmetic. -/
def fixedUpdateEntity (fl : PlayerInputFlags) (PLAYER_CHARACTER : Nat) (em : EntityManager)
    (dt : ℚ) (st : SimState) (playerEntity : Entity) : Option SimState :=
  if em.HasComponent playerEntity PLAYER_CHARACTER = false then some st
  else
    (st.1.GetBody playerEntity).bind fun playerBody =>
    (st.2.GetComponent playerEntity).bind fun playerCharacter =>
    let input := playerCharacter.input
    let right : Bool := input &&& fl.RIGHT != 0
    let left : Bool := input &&& fl.LEFT != 0
    let up : Bool := input &&& fl.UP != 0
    let jump : ℚ := if up then 9 / 10 else -(7 / 10)
    let dir : ℚ := (if left then 4 else 0) + (if right then -4 else 0)
    (flipCharacter st.1 playerEntity playerCharacter.playerNumber left right playerBody).bind
      fun (playerBody, pm) =>
    let playerBody : Body :=
      { playerBody with
        velocity := ⟨playerBody.velocity.x + dir * dt, playerBody.velocity.y + jump⟩ }
    if playerCharacter.invincibilityTime > 0 then
      let playerCharacter : PlayerCharacter :=
        { playerCharacter with invincibilityTime := playerCharacter.invincibilityTime - dt }
      let playerBody : Body := { playerBody with velocity := ⟨0, -2⟩ }
      (st.2.SetComponent playerEntity playerCharacter).bind fun self =>
      (pm.SetBody playerEntity playerBody).map fun pm => (pm, self)
    else
      (pm.SetBody playerEntity playerBody).map fun pm => (pm, st.2)

/-- The method `PlayerCharacterManager::FixedUpdate`: the loop over the entity indices
below `GetEntitiesSize`, in increasing order.  `none` is an out-of-range access. -/
def FixedUpdate (fl : PlayerInputFlags) (PLAYER_CHARACTER : Nat) (em : EntityManager)
    (dt : ℚ) (st : SimState) : Option SimState :=
  (List.range em.GetEntitiesSize).foldlM (fixedUpdateEntity fl PLAYER_CHARACTER em dt) st

/-- A store of player-character managers, by address. -/
abbrev ManagerStore := Nat → PlayerCharacterManager

/-- The assignment `*a = *b` of `PlayerCharacterManager::operator=` (lines 100-106) on
the managers stored at the addresses `a` and `b`. -/
def assign (h : ManagerStore) (a b : Nat) : ManagerStore :=
  Function.update h a
    { h a with gameManager_ := (h b).gameManager_, components_ := (h b).components_ }

/-- A second keyboard: as `sampleKeys`, with the D key held as well. -/
def sampleKeysD : KeyboardState := fun sc =>
  if sc = SDL_SCANCODE_D then 1 else sampleKeys sc

/-- A third keyboard: as `sampleKeys`, with the down arrow held as well. -/
def sampleKeysDown : KeyboardState := fun sc =>
  if sc = SDL_SCANCODE_DOWN then 1 else sampleKeys sc

/-- Three entities, the first two of which are player characters (mask `1024`). -/
def sampleEntities : EntityManager := ⟨[1024, 1024, 0]⟩

/-- A state for `sampleEntities`: player 1 pressing RIGHT, an invincible player 2
pressing LEFT, and an entity that is no player. -/
def sampleState : SimState :=
  (⟨[⟨⟨0, 0⟩, ⟨1, 1⟩, 0⟩, ⟨⟨5, 5⟩, ⟨0, 0⟩, 180⟩, ⟨⟨5, 5⟩, ⟨0, 0⟩, 180⟩]⟩,
   ⟨0, 1, 2, [⟨8, 1, 0⟩, ⟨4, 2, 1⟩, ⟨4, 2, 1⟩]⟩)

/-! ## The calls made by `AsteroidDebugApp::Update` -/

/-- A call that `AsteroidDebugApp::Update` makes on one of its collaborators. -/
inductive Call where
  | SetPlayerInput (client : Nat) (input : Nat)
  | ClientUpdate (client : Nat) (dt : ℚ)
  | ServerUpdate (dt : ℚ)
  deriving DecidableEq

/-- The loop `for (auto& client : clients_) client->Update(dt);` (lines 56-59), appending
to the calls made so far. -/
def updateClients (numClients : Nat) (dt : ℚ) (calls : List Call) : List Call :=
  (List.range numClients).foldl (fun calls i => calls ++ [Call.ClientUpdate i dt]) calls

/-- The method `AsteroidDebugApp::Update` (lines 35-61) as the sequence of calls it makes,
for an array `clients_` of `numClients` clients.  `none` is the access `clients_[0]` or
`clients_[1]` outside the array. -/
def AsteroidDebugApp.Update (w : Nat) (fl : PlayerInputFlags) (numClients : Nat)
    (keys : KeyboardState) (dt : ℚ) : Option (List Call) :=
  let calls : List Call := []
  if 0 < numClients then
    let calls := calls ++ [Call.SetPlayerInput 0 (clientInput1 w fl keys)]
    if 1 < numClients then
      let calls := calls ++ [Call.SetPlayerInput 1 (clientInput2 w fl keys)]
      let calls := updateClients numClients dt calls
      some (calls ++ [Call.ServerUpdate dt])
    else none
  else none

/-! ## The function map -/

/-- Modelled from the spec: the class `neko::FunctionMap` declared in
`city_function_map.h`, which is not part of the sources; only its test is.  Following the
test, a function map holds the component it was built with and the callbacks registered
by name, the most recent registration of a name first. -/
structure FunctionMap (C V : Type) where
  comp_ : C
  funcMap_ : List (String × (C → V → Bool))

/-- Modelled from the spec: the constructor `FunctionMap(comp)`: no function is
registered. -/
def FunctionMap.new {C V : Type} (comp : C) : FunctionMap C V :=
  { comp_ := comp, funcMap_ := [] }

/-- Modelled from the spec: `FunctionMap::SetFunction(name, func)` registers `func`
under `name`, replacing what was registered under `name` before. -/
def FunctionMap.SetFunction {C V : Type} (m : FunctionMap C V) (name : String)
    (func : C → V → Bool) : FunctionMap C V :=
  { m with funcMap_ := (name, func) :: m.funcMap_.filter fun p => p.1 != name }

/-- Modelled from the spec: `FunctionMap::CallFunction(name, value)` calls the function
registered under `name` with the component and `value` and returns its result, and
returns `false` when there is none. -/
def FunctionMap.CallFunction {C V : Type} (m : FunctionMap C V) (name : String) (value : V) :
    Bool :=
  match m.funcMap_.find? fun p => p.1 == name with
  | some p => p.2 m.comp_ value
  | none => false

/-- The function map after the registrations `regs`, made in order on a new map. -/
def FunctionMap.afterSetFunctions {C V : Type} (comp : C)
    (regs : List (String × (C → V → Bool))) : FunctionMap C V :=
  regs.foldl (fun m r => m.SetFunction r.1 r.2) (FunctionMap.new comp)

/-! ## The rollback core: input-frame buffer, snapshot store, client reconciliation

The code of the simulation client and server is not part of the sources, so this part
of the embedding follows the design document. -/

/-- Modelled from the spec: the error taxonomy of the rollback core, which is not part
of the sources. -/
inductive Signal where
  | StaleTick
  | NotAvailable
  | Desynced
  | MalformedMessage
  deriving DecidableEq, Repr

/-- Modelled from the spec: an `InputFrame`, the known inputs of one tick by player slot
(missing from the sources); a slot without an entry is unknown. -/
abbrev InputFrame := List (Nat × Nat)

/-- Modelled from the spec: filling the slot `slot` of an input frame (missing from the
sources). -/
def frameSet (f : InputFrame) (slot input : Nat) : InputFrame :=
  (slot, input) :: f.filter fun p => p.1 != slot

/-- Modelled from the spec: the `InputFrame Buffer` (missing from the sources), a
fixed-capacity ring of per-tick input frames indexed by `tick mod capacity`, each entry
tagged with its tick, and the eviction horizon below which ticks are no longer held. -/
structure InputFrameBuffer where
  horizon : Nat
  ring : List (Option (Nat × InputFrame))
  ring_ne : ring ≠ []

/-- Modelled from the spec: the ring slot of `tick` in an input-frame buffer (missing
from the sources). -/
def InputFrameBuffer.frameAt (b : InputFrameBuffer) (tick : Nat) : Option InputFrame :=
  match b.ring[tick % b.ring.length]? with
  | some (some (t, f)) => if t = tick then some f else none
  | _ => none

/-- Modelled from the spec: `SetInput(tick, playerSlot, input)` (missing from the
sources): records the input; rejects, signalling `StaleTick`, if `tick` is older than the
eviction horizon. -/
def InputFrameBuffer.SetInput (b : InputFrameBuffer) (tick : Nat) (playerSlot input : Nat) :
    Option Signal × InputFrameBuffer :=
  if tick < b.horizon then (some Signal.StaleTick, b)
  else
    let frame := (b.frameAt tick).getD []
    (none,
      { b with
        ring := b.ring.set (tick % b.ring.length) (some (tick, frameSet frame playerSlot input))
        ring_ne := by
          intro h
          exact b.ring_ne (List.length_eq_zero.1 (by simpa using congrArg List.length h)) })

/-- Modelled from the spec: `GetInput(tick, playerSlot)` (missing from the sources), a
non-blocking read; `none` is `Unknown`. -/
def InputFrameBuffer.GetInput (b : InputFrameBuffer) (tick : Nat) (playerSlot : Nat) :
    Option Nat :=
  if tick < b.horizon then none
  else (b.frameAt tick).bind fun f => f.lookup playerSlot

/-- Modelled from the spec: the `World Snapshot Store` (missing from the sources), a ring
of world states indexed by `tick mod capacity`, each tagged with its tick. -/
structure SnapshotStore (W : Type) where
  ring : List (Option (Nat × W))
  ring_ne : ring ≠ []

/-- Modelled from the spec: `Store(tick, state)` (missing from the sources): inserts or
overwrites at `tick mod capacity`. -/
def SnapshotStore.Store {W : Type} (st : SnapshotStore W) (tick : Nat) (state : W) :
    SnapshotStore W :=
  { ring := st.ring.set (tick % st.ring.length) (some (tick, state))
    ring_ne := by
      intro h
      exact st.ring_ne (List.length_eq_zero.1 (by simpa using congrArg List.length h)) }

/-- Modelled from the spec: `Fetch(tick)` (missing from the sources); `none` is
`NotAvailable`. -/
def SnapshotStore.Fetch {W : Type} (st : SnapshotStore W) (tick : Nat) : Option W :=
  match st.ring[tick % st.ring.length]? with
  | some (some (t, w)) => if t = tick then some w else none
  | _ => none

/-- Modelled from the spec: the repeat-last-input policy (missing from the sources): the
input of `slot` at `tick` if known, else its most recently known input, else no input. -/
def extrapolate (b : InputFrameBuffer) (slot : Nat) : Nat → Nat
  | 0 => (b.GetInput 0 slot).getD 0
  | t + 1 =>
    match b.GetInput (t + 1) slot with
    | some i => i
    | none => extrapolate b slot t

/-- Modelled from the spec: the merged input frame of a tick (missing from the sources):
for each of the `numSlots` player slots the known input or its extrapolation. -/
def mergedFrame (b : InputFrameBuffer) (numSlots : Nat) (tick : Nat) : List Nat :=
  (List.range numSlots).map fun slot => extrapolate b slot tick

/-- Modelled from the spec: the message `ServerConfirmedFrame{tick, inputFrame}` (missing
from the sources); the frame holds the authoritative input of every slot. -/
structure ServerConfirmedFrame where
  tick : Nat
  inputFrame : List Nat
  deriving DecidableEq

/-- Modelled from the spec: the states of the client prediction engine (missing from the
sources). -/
inductive ClientStatus where
  | Idle
  | Predicting
  | Reconciling
  | Desynced
  deriving DecidableEq, Repr

/-- Modelled from the spec: the per-client record (missing from the sources): last
confirmed tick, current predicted tick (the newest tick simulated), input history and
snapshots. -/
structure ClientState (W : Type) where
  status : ClientStatus
  confirmedTick : Nat
  predictedTick : Nat
  numSlots : Nat
  inputs : InputFrameBuffer
  snapshots : SnapshotStore W

/-- Modelled from the spec: storing the authoritative inputs of a confirmed frame in the
input-frame buffer (missing from the sources), slot by slot. -/
def recordFrame (b : InputFrameBuffer) (tick : Nat) (inputFrame : List Nat) :
    InputFrameBuffer :=
  inputFrame.enum.foldl (fun b p => (b.SetInput tick p.1 p.2).2) b

/-- Modelled from the spec: the rollback point (missing from the sources): the nearest
tick at or below `t`, looking back at most `depth` ticks, whose snapshot is available. -/
def nearestAvailable {W : Type} (st : SnapshotStore W) : (depth : Nat) → Nat → Option (Nat × W)
  | 0, _ => none
  | depth + 1, t =>
    match st.Fetch t with
    | some w => some (t, w)
    | none => if t = 0 then none else nearestAvailable st depth (t - 1)

/-- Modelled from the spec: resimulation (missing from the sources): from the world `w`
of tick `t`, simulate the next `n` ticks one by one with their merged input frames and
overwrite their snapshots. -/
def resimulate {W : Type} (sim : W → List Nat → W) (b : InputFrameBuffer) (numSlots : Nat) :
    (n : Nat) → Nat → W → SnapshotStore W → SnapshotStore W
  | 0, _, _, st => st
  | n + 1, t, w, st =>
    let w1 := sim w (mergedFrame b numSlots (t + 1))
    resimulate sim b numSlots n (t + 1) w1 (st.Store (t + 1) w1)

/-- Modelled from the spec: what the client prediction engine does on receiving a
server-confirmed frame for tick `T` (missing from the sources).  A desynced client waits
for a resync; a frame at or below the confirmed tick is a no-op; a frame beyond the
predicted tick is not handled.  Otherwise the input used at `T` is compared with the
authoritative one: if identical only the confirmed tick advances; if not, the client
rolls back to the nearest available snapshot at or below its confirmed tick, within the
rollback window, resimulates up to the predicted tick with the authoritative inputs in
place, and sets the confirmed tick to `T`; it becomes `Desynced` when no snapshot is
available. -/
def onConfirmedFrame {W : Type} (sim : W → List Nat → W) (s : ClientState W)
    (f : ServerConfirmedFrame) : ClientState W :=
  if s.status = ClientStatus.Desynced then s
  else if f.tick ≤ s.confirmedTick then s
  else if s.predictedTick < f.tick then s
  else if mergedFrame s.inputs s.numSlots f.tick = f.inputFrame then
    { s with confirmedTick := f.tick }
  else
    match nearestAvailable s.snapshots s.snapshots.ring.length s.confirmedTick with
    | none => { s with status := ClientStatus.Desynced }
    | some (r, w) =>
      let inputs := recordFrame s.inputs f.tick f.inputFrame
      { s with
        confirmedTick := f.tick
        inputs := inputs
        snapshots := resimulate sim inputs s.numSlots (s.predictedTick - r) r w s.snapshots }

/-- Modelled from the spec: the canonical world of the server authority loop (missing
from the sources) at each tick: the server simulates tick `k + 1` from its world of tick
`k` with the confirmed input frame of tick `k + 1`, and never rolls back. -/
def serverState {W : Type} (sim : W → List Nat → W) (w0 : W) (frames : Nat → List Nat) :
    Nat → W
  | 0 => w0
  | k + 1 => sim (serverState sim w0 frames k) (frames (k + 1))

/-- A simulator for examples: the world is a number that every input frame changes. -/
def sampleSim (w : Nat) (frame : List Nat) : Nat :=
  10 * w + frame.sum + 1

/-- An input-frame buffer of capacity 8 in which the local player (slot 0) has input 1
at ticks 1 and 2, and nothing is known of slot 1. -/
def sampleInputs : InputFrameBuffer :=
  { horizon := 0
    ring := [none, some (1, [(0, 1)]), some (2, [(0, 1)]), none, none, none, none, none]
    ring_ne := by simp }

/-- The snapshots of capacity 8 of a client that started from world 5 and predicted
ticks 1 and 2 with the inputs of `sampleInputs`, slot 1 extrapolated to no input. -/
def sampleSnapshots : SnapshotStore Nat :=
  { ring := [some (0, 5), some (1, 52), some (2, 522), none, none, none, none, none]
    ring_ne := by simp }

/-- A predicting client with two player slots, confirmed at tick 0, predicted to tick 2. -/
def sampleClient : ClientState Nat :=
  { status := ClientStatus.Predicting, confirmedTick := 0, predictedTick := 2, numSlots := 2
    inputs := sampleInputs, snapshots := sampleSnapshots }

/-- The server's frame of tick 1: slot 1 had input 4, which the client did not predict. -/
def sampleFrame : ServerConfirmedFrame := { tick := 1, inputFrame := [1, 4] }

/-- The frames of a server on which slot 0 holds input 1 and slot 1 holds input 4. -/
def sampleServerFrames : Nat → List Nat := fun _ => [1, 4]

/-- A client that has already confirmed tick 1, the tick of `sampleFrame`: the client
`sampleClient` with its confirmed tick set to 1. -/
def sampleConfirmedClient : ClientState Nat :=
  { sampleClient with confirmedTick := 1 }

/-- An input-frame buffer whose horizon is tick 10. -/
def sampleLateInputs : InputFrameBuffer :=
  { sampleInputs with horizon := 10 }

/-! ## Closed form of one loop iteration of `FixedUpdate` -/

/-- Every entity index below `GetEntitiesSize` has a body slot and a component slot. -/
def WellFormed (em : EntityManager) (st : SimState) : Prop :=
  em.GetEntitiesSize ≤ st.1.bodies_.length ∧ em.GetEntitiesSize ≤ st.2.components_.length

instance (em : EntityManager) (st : SimState) : Decidable (WellFormed em st) := by
  unfold WellFormed; exact inferInstance

/-- The rotation that the flip of lines 59-84 leaves in the local `playerBody`; proved
to be what `flipCharacter` computes for every player number in `flipCharacter_eq`. -/
def flippedRotation (left right : Bool) (rotation : ℚ) : ℚ :=
  if rotation = 0 ∧ right = true then 180
  else if rotation = 180 ∧ left = true then 0
  else rotation

/-- The body and the component that one loop iteration (lines 47-96) leaves in the slots
of a player entity that held `body` and `pc`; proved to be what `fixedUpdateEntity`
writes in `fixedUpdateEntity_player`. -/
def playerStep (fl : PlayerInputFlags) (dt : ℚ) (body : Body) (pc : PlayerCharacter) :
    Body × PlayerCharacter :=
  let right : Bool := pc.input &&& fl.RIGHT != 0
  let left : Bool := pc.input &&& fl.LEFT != 0
  let up : Bool := pc.input &&& fl.UP != 0
  let jump : ℚ := if up then 9 / 10 else -(7 / 10)
  let dir : ℚ := (if left then 4 else 0) + (if right then -4 else 0)
  let rotation := flippedRotation left right body.rotation
  if pc.invincibilityTime > 0 then
    ({ position := body.position, velocity := ⟨0, -2⟩, rotation := rotation },
     { pc with invincibilityTime := pc.invincibilityTime - dt })
  else
    ({ position := body.position
       velocity := ⟨body.velocity.x + dir * dt, body.velocity.y + jump⟩
       rotation := rotation }, pc)

/-- The body slot and the component slot of an entity. -/
def slots (st : SimState) (e : Entity) : Option Body × Option PlayerCharacter :=
  (st.1.GetBody e, st.2.GetComponent e)

/-- The slots of an entity after its loop iteration: those of `playerStep` for a player
entity, the same slots otherwise. -/
def slotStep (fl : PlayerInputFlags) (PLAYER_CHARACTER : Nat) (em : EntityManager) (dt : ℚ)
    (e : Entity) (s : Option Body × Option PlayerCharacter) :
    Option Body × Option PlayerCharacter :=
  if em.HasComponent e PLAYER_CHARACTER = true then
    match s with
    | (some body, some pc) => (some (playerStep fl dt body pc).1, some (playerStep fl dt body pc).2)
    | _ => s
  else s

/-- The outcome of the loop of `FixedUpdate` written as the source writes it. -/
inductive LoopResult where
  | outOfFuel
  | fault
  | done (st : SimState) (visited : List Entity)

/-- The loop `for (playerEntity = 0; playerEntity < GetEntitiesSize(); playerEntity++)`
of `FixedUpdate` (lines 42-97) step by step: `fuel` bounds the number of evaluations of
the loop condition, `visited` records the entity indices for which the body was entered,
`fault` is an out-of-range access. -/
def fixedUpdateLoop (fl : PlayerInputFlags) (PLAYER_CHARACTER : Nat) (em : EntityManager)
    (dt : ℚ) : (fuel : Nat) → Entity → SimState → List Entity → LoopResult
  | 0, _, _, _ => LoopResult.outOfFuel
  | fuel + 1, playerEntity, st, visited =>
    if playerEntity < em.GetEntitiesSize then
      match fixedUpdateEntity fl PLAYER_CHARACTER em dt st playerEntity with
      | none => LoopResult.fault
      | some st1 =>
        fixedUpdateLoop fl PLAYER_CHARACTER em dt fuel (playerEntity + 1) st1
          (visited ++ [playerEntity])
    else LoopResult.done st visited

/-- The state `sampleState` with the first player renumbered from 1 to 2. -/
def sampleStateOtherNumber : SimState :=
  (sampleState.1, ⟨0, 1, 2, [⟨8, 2, 0⟩, ⟨4, 2, 1⟩, ⟨4, 2, 1⟩]⟩)

/-- The state `sampleState` with the first player pressing DOWN as well as RIGHT. -/
def sampleStateDown : SimState :=
  (sampleState.1, ⟨0, 1, 2, [⟨10, 1, 0⟩, ⟨4, 2, 1⟩, ⟨4, 2, 1⟩]⟩)

/-! ## Float arithmetic in the loop body of `FixedUpdate` -/

/-- The integer nearest to `x`, the even one of the two when `x` lies halfway. -/
def roundHalfEven (x : ℚ) : ℤ :=
  if x - ⌊x⌋ < 1 / 2 then ⌊x⌋
  else if 1 / 2 < x - ⌊x⌋ then ⌊x⌋ + 1
  else if ⌊x⌋ % 2 = 0 then ⌊x⌋
  else ⌊x⌋ + 1

/-- The exponent of the binary32 binade of `x`: the greatest `e` with `2 ^ e ≤ |x|`, and
`-126` in the subnormal range. -/
def binary32Exponent (x : ℚ) : ℤ :=
  max (Int.log 2 |x|) (-126)

/-- The binary32 value nearest to `x` (round to nearest, ties to even): the multiple of
the spacing `2 ^ (e - 23)` of the binade of `x` that is nearest to `x`.  This is the value
a `float` operation with exact result `x` stores, as long as it is below `2 ^ 128` in
magnitude; beyond that the float is an infinity, and infinities and NaN are not
embedded. -/
def roundBinary32 (x : ℚ) : ℚ :=
  roundHalfEven (x / 2 ^ (binary32Exponent x - 23)) * 2 ^ (binary32Exponent x - 23)

/-- The arithmetic of the type `float` that the loop body of `FixedUpdate` uses: the
operators `+`, `-`, `*` on finite values and the value of a decimal literal.  The values
0, 4, -4, -2 and 180 are exact in every binary float format. -/
structure FloatArith where
  add : ℚ → ℚ → ℚ
  sub : ℚ → ℚ → ℚ
  mul : ℚ → ℚ → ℚ
  lit : ℚ → ℚ

/-- Exact arithmetic. -/
def exactArith : FloatArith :=
  { add := fun a b => a + b, sub := fun a b => a - b, mul := fun a b => a * b,
    lit := fun a => a }

/-- The arithmetic of IEEE 754 binary32, the type `float`: every operation stores its
exact result rounded to the nearest binary32 value. -/
def binary32Arith : FloatArith :=
  { add := fun a b => roundBinary32 (a + b), sub := fun a b => roundBinary32 (a - b),
    mul := fun a b => roundBinary32 (a * b), lit := fun a => roundBinary32 a }

/-- One iteration of the loop of `PlayerCharacterManager::FixedUpdate` (lines 44-96) with
the float operations of lines 56-57, 86-87 and 91 taken from `F`; with `exactArith` it is
`fixedUpdateEntity`. -/
def fixedUpdateEntityFloat (F : FloatArith) (fl : PlayerInputFlags) (PLAYER_CHARACTER : Nat)
    (em : EntityManager) (dt : ℚ) (st : SimState) (playerEntity : Entity) : Option SimState :=
  if em.HasComponent playerEntity PLAYER_CHARACTER = false then some st
  else
    (st.1.GetBody playerEntity).bind fun playerBody =>
    (st.2.GetComponent playerEntity).bind fun playerCharacter =>
    let input := playerCharacter.input
    let right : Bool := input &&& fl.RIGHT != 0
    let left : Bool := input &&& fl.LEFT != 0
    let up : Bool := input &&& fl.UP != 0
    let jump : ℚ := if up then F.lit (9 / 10) else F.lit (-(7 / 10))
    let dir : ℚ := F.add (if left then 4 else 0) (if right then -4 else 0)
    (flipCharacter st.1 playerEntity playerCharacter.playerNumber left right playerBody).bind
      fun (playerBody, pm) =>
    let playerBody : Body :=
      { playerBody with
        velocity := ⟨F.add playerBody.velocity.x (F.mul dir dt),
                     F.add playerBody.velocity.y jump⟩ }
    if playerCharacter.invincibilityTime > 0 then
      let playerCharacter : PlayerCharacter :=
        { playerCharacter with
          invincibilityTime := F.sub playerCharacter.invincibilityTime dt }
      let playerBody : Body := { playerBody with velocity := ⟨0, -2⟩ }
      (st.2.SetComponent playerEntity playerCharacter).bind fun self =>
      (pm.SetBody playerEntity playerBody).map fun pm => (pm, self)
    else
      (pm.SetBody playerEntity playerBody).map fun pm => (pm, st.2)

/-- The method `PlayerCharacterManager::FixedUpdate` with the float operations taken from
`F`: the loop over the entity indices below `GetEntitiesSize`, in increasing order. -/
def FixedUpdateFloat (F : FloatArith) (fl : PlayerInputFlags) (PLAYER_CHARACTER : Nat)
    (em : EntityManager) (dt : ℚ) (st : SimState) : Option SimState :=
  (List.range em.GetEntitiesSize).foldlM (fixedUpdateEntityFloat F fl PLAYER_CHARACTER em dt) st

/-- The body and the component that one loop iteration (lines 47-96) with the float
operations of `F` leaves in the slots of a player entity that held `body` and `pc`;
proved to be what `fixedUpdateEntityFloat` writes in `fixedUpdateEntityFloat_player`. -/
def playerStepFloat (F : FloatArith) (fl : PlayerInputFlags) (dt : ℚ) (body : Body)
    (pc : PlayerCharacter) : Body × PlayerCharacter :=
  let right : Bool := pc.input &&& fl.RIGHT != 0
  let left : Bool := pc.input &&& fl.LEFT != 0
  let up : Bool := pc.input &&& fl.UP != 0
  let jump : ℚ := if up then F.lit (9 / 10) else F.lit (-(7 / 10))
  let dir : ℚ := F.add (if left then 4 else 0) (if right then -4 else 0)
  let rotation := flippedRotation left right body.rotation
  if pc.invincibilityTime > 0 then
    ({ position := body.position, velocity := ⟨0, -2⟩, rotation := rotation },
     { pc with invincibilityTime := F.sub pc.invincibilityTime dt })
  else
    ({ position := body.position
       velocity := ⟨F.add body.velocity.x (F.mul dir dt), F.add body.velocity.y jump⟩
       rotation := rotation }, pc)

/-- The slots of an entity after its loop iteration with the float operations of `F`. -/
def slotStepFloat (F : FloatArith) (fl : PlayerInputFlags) (PLAYER_CHARACTER : Nat)
    (em : EntityManager) (dt : ℚ) (e : Entity) (s : Option Body × Option PlayerCharacter) :
    Option Body × Option PlayerCharacter :=
  if em.HasComponent e PLAYER_CHARACTER = true then
    match s with
    | (some body, some pc) =>
      (some (playerStepFloat F fl dt body pc).1, some (playerStepFloat F fl dt body pc).2)
    | _ => s
  else s

/-- The binary32 value of the literal `0.02f`, a frame time. -/
def dtFiftieth : ℚ := 5368709 / 268435456

/-! ## Theorems -/

/-- Bit `b` of an accumulated input after one `orKey` step. -/
theorem testBit_orKey (w : Nat) (keys : KeyboardState) (acc sc i b : Nat) :
    (orKey w keys acc sc (2 ^ i)).testBit b =
      (decide (b < w) && (acc.testBit b || (decide (keys sc ≠ 0) && decide (i = b)))) := by
  unfold orKey
  by_cases h : keys sc ≠ 0
  · simp [h, Nat.testBit_mod_two_pow, Nat.testBit_two_pow]
  · simp [h, Nat.testBit_mod_two_pow]

/-- Bit `b` of `clientInput1` when the flags are single bits. -/
theorem testBit_clientInput1 (w : Nat) (keys : KeyboardState) (iL iR iU iD iS b : Nat) :
    (clientInput1 w ⟨2 ^ iL, 2 ^ iR, 2 ^ iU, 2 ^ iD, 2 ^ iS⟩ keys).testBit b =
      (decide (b < w) &&
        ((decide (keys SDL_SCANCODE_LEFT ≠ 0) && decide (iL = b)) ||
         (decide (keys SDL_SCANCODE_RIGHT ≠ 0) && decide (iR = b)) ||
         (decide (keys SDL_SCANCODE_UP ≠ 0) && decide (iU = b)) ||
         (decide (keys SDL_SCANCODE_DOWN ≠ 0) && decide (iD = b)) ||
         (decide (keys SDL_SCANCODE_LCTRL ≠ 0) && decide (iS = b)))) := by
  simp only [clientInput1, testBit_orKey, Nat.zero_testBit]
  cases decide (b < w) <;> simp

/-- Bit `b` of `clientInput2` when the flags are single bits. -/
theorem testBit_clientInput2 (w : Nat) (keys : KeyboardState) (iL iR iU iD iS b : Nat) :
    (clientInput2 w ⟨2 ^ iL, 2 ^ iR, 2 ^ iU, 2 ^ iD, 2 ^ iS⟩ keys).testBit b =
      (decide (b < w) &&
        ((decide (keys SDL_SCANCODE_A ≠ 0) && decide (iL = b)) ||
         (decide (keys SDL_SCANCODE_D ≠ 0) && decide (iR = b)) ||
         (decide (keys SDL_SCANCODE_W ≠ 0) && decide (iU = b)) ||
         (decide (keys SDL_SCANCODE_S ≠ 0) && decide (iD = b)) ||
         (decide (keys SDL_SCANCODE_SPACE ≠ 0) && decide (iS = b)))) := by
  simp only [clientInput2, testBit_orKey, Nat.zero_testBit]
  cases decide (b < w) <;> simp

/-- The shape of a flag set that satisfies `DistinctSingleBits`. -/
theorem DistinctSingleBits.eq_mk {w : Nat} {fl : PlayerInputFlags} {iL iR iU iD iS : Nat}
    (h : DistinctSingleBits w fl iL iR iU iD iS) :
    fl = ⟨2 ^ iL, 2 ^ iR, 2 ^ iU, 2 ^ iD, 2 ^ iS⟩ := by
  obtain ⟨h1, h2, h3, h4, h5, -, -⟩ := h
  cases fl
  simp_all

/-- C1: when LEFT, RIGHT, UP, DOWN, SHOOT are pairwise distinct single bits of the input
type, then for every keyboard state the input given to client 0 has the bit of a flag set
exactly when that flag's key (left, right, up, down arrow, left control) is down and has
no bit set outside the five flags; likewise for client 1 with the keys A, D, W, S, space. -/
theorem C1_inputs_reflect_keys (w : Nat) (fl : PlayerInputFlags) (keys : KeyboardState)
    (iL iR iU iD iS : Nat) (h : DistinctSingleBits w fl iL iR iU iD iS) :
    (((clientInput1 w fl keys).testBit iL = true ↔ keys SDL_SCANCODE_LEFT ≠ 0) ∧
      ((clientInput1 w fl keys).testBit iR = true ↔ keys SDL_SCANCODE_RIGHT ≠ 0) ∧
      ((clientInput1 w fl keys).testBit iU = true ↔ keys SDL_SCANCODE_UP ≠ 0) ∧
      ((clientInput1 w fl keys).testBit iD = true ↔ keys SDL_SCANCODE_DOWN ≠ 0) ∧
      ((clientInput1 w fl keys).testBit iS = true ↔ keys SDL_SCANCODE_LCTRL ≠ 0) ∧
      ∀ b, (clientInput1 w fl keys).testBit b = true → b ∈ [iL, iR, iU, iD, iS]) ∧
    (((clientInput2 w fl keys).testBit iL = true ↔ keys SDL_SCANCODE_A ≠ 0) ∧
      ((clientInput2 w fl keys).testBit iR = true ↔ keys SDL_SCANCODE_D ≠ 0) ∧
      ((clientInput2 w fl keys).testBit iU = true ↔ keys SDL_SCANCODE_W ≠ 0) ∧
      ((clientInput2 w fl keys).testBit iD = true ↔ keys SDL_SCANCODE_S ≠ 0) ∧
      ((clientInput2 w fl keys).testBit iS = true ↔ keys SDL_SCANCODE_SPACE ≠ 0) ∧
      ∀ b, (clientInput2 w fl keys).testBit b = true → b ∈ [iL, iR, iU, iD, iS]) := by
  have hfl := h.eq_mk
  obtain ⟨-, -, -, -, -, hnd, hw⟩ := h
  subst hfl
  have hL : iL < w := hw iL (by simp)
  have hR : iR < w := hw iR (by simp)
  have hU : iU < w := hw iU (by simp)
  have hD : iD < w := hw iD (by simp)
  have hS : iS < w := hw iS (by simp)
  simp only [List.nodup_cons, List.mem_cons, List.mem_singleton, not_or, List.not_mem_nil,
    not_false_eq_true, List.nodup_nil, and_true, or_false] at hnd
  obtain ⟨⟨n1, n2, n3, n4⟩, ⟨n5, n6, n7⟩, ⟨n8, n9⟩, n10⟩ := hnd
  simp only [testBit_clientInput1, testBit_clientInput2]
  refine ⟨⟨?_, ?_, ?_, ?_, ?_, ?_⟩, ⟨?_, ?_, ?_, ?_, ?_, ?_⟩⟩ <;>
    simp [*, Ne.symm n1, Ne.symm n2, Ne.symm n3, Ne.symm n4, Ne.symm n5, Ne.symm n6,
      Ne.symm n7, Ne.symm n8, Ne.symm n9, Ne.symm n10] <;>
    (try (intro b _ hb; tauto))

/-- C2: the inputs of the two local clients are isolated from each other: two keyboard
states that agree on left, right, up, down and left control give client 0 the same
input, and two keyboard states that agree on A, D, W, S and space give client 1 the
same input. -/
theorem C2_client_inputs_isolated (w : Nat) (fl : PlayerInputFlags) (k1 k2 : KeyboardState) :
    (k1 SDL_SCANCODE_LEFT = k2 SDL_SCANCODE_LEFT → k1 SDL_SCANCODE_RIGHT = k2 SDL_SCANCODE_RIGHT →
      k1 SDL_SCANCODE_UP = k2 SDL_SCANCODE_UP → k1 SDL_SCANCODE_DOWN = k2 SDL_SCANCODE_DOWN →
      k1 SDL_SCANCODE_LCTRL = k2 SDL_SCANCODE_LCTRL →
      clientInput1 w fl k1 = clientInput1 w fl k2) ∧
    (k1 SDL_SCANCODE_A = k2 SDL_SCANCODE_A → k1 SDL_SCANCODE_D = k2 SDL_SCANCODE_D →
      k1 SDL_SCANCODE_W = k2 SDL_SCANCODE_W → k1 SDL_SCANCODE_S = k2 SDL_SCANCODE_S →
      k1 SDL_SCANCODE_SPACE = k2 SDL_SCANCODE_SPACE →
      clientInput2 w fl k1 = clientInput2 w fl k2) := by
  constructor
  · intro h1 h2 h3 h4 h5
    simp only [clientInput1, orKey, h1, h2, h3, h4, h5]
  · intro h1 h2 h3 h4 h5
    simp only [clientInput2, orKey, h1, h2, h3, h4, h5]

/-- C2 at concrete keyboards: holding D as well does not change the input of client 0,
and holding the down arrow as well does not change the input of client 1. -/
theorem C2_client_inputs_isolated_witness :
    clientInput1 8 asteroidFlags sampleKeys = clientInput1 8 asteroidFlags sampleKeysD ∧
    clientInput2 8 asteroidFlags sampleKeys = clientInput2 8 asteroidFlags sampleKeysDown :=
  ⟨(C2_client_inputs_isolated 8 asteroidFlags sampleKeys sampleKeysD).1
      (by decide) (by decide) (by decide) (by decide) (by decide),
   (C2_client_inputs_isolated 8 asteroidFlags sampleKeys sampleKeysDown).2
      (by decide) (by decide) (by decide) (by decide) (by decide)⟩

/-- C4: after the assignment `a = b` the manager at `a` holds, for every entity, the
player-character component (input, playerNumber, invincibilityTime) that the manager at
`b` holds, and the manager at `b` is unchanged. -/
theorem C4_assign_copies_components (h : ManagerStore) (a b : Nat) (entity : Entity) :
    ((assign h a b) a).GetComponent entity = (h b).GetComponent entity ∧
      (assign h a b) b = h b := by
  constructor
  · simp [assign, PlayerCharacterManager.GetComponent]
  · by_cases hab : b = a
    · subst hab
      simp [assign]
    · simp [assign, Function.update_noteq hab]

/-- C1 at the flag values of the asteroid game and a concrete keyboard. -/
theorem C1_inputs_reflect_keys_witness :
    DistinctSingleBits 8 asteroidFlags 2 3 0 1 4 ∧
    clientInput1 8 asteroidFlags sampleKeys = 24 ∧
    ((clientInput1 8 asteroidFlags sampleKeys).testBit 3 = true ↔
      sampleKeys SDL_SCANCODE_RIGHT ≠ 0) ∧
    ((clientInput2 8 asteroidFlags sampleKeys).testBit 3 = true ↔
      sampleKeys SDL_SCANCODE_D ≠ 0) :=
  have hd : DistinctSingleBits 8 asteroidFlags 2 3 0 1 4 := by
    unfold DistinctSingleBits; decide
  ⟨hd, by decide,
   (C1_inputs_reflect_keys 8 asteroidFlags sampleKeys 2 3 0 1 4 hd).1.2.1,
   (C1_inputs_reflect_keys 8 asteroidFlags sampleKeys 2 3 0 1 4 hd).2.2.1⟩

/-- The client loop appends one `ClientUpdate` per client, in index order. -/
theorem updateClients_eq (n : Nat) (dt : ℚ) (calls : List Call) :
    updateClients n dt calls = calls ++ (List.range n).map fun i => Call.ClientUpdate i dt := by
  unfold updateClients
  induction n with
  | zero => simp
  | succ n ih => simp [List.range_succ, List.foldl_append, ih]

/-- Registrations under other names do not make `name` callable. -/
theorem FunctionMap.find_afterSetFunctions {C V : Type} (comp : C) (name : String)
    (regs : List (String × (C → V → Bool))) (h : ∀ r ∈ regs, r.1 ≠ name) :
    ((FunctionMap.afterSetFunctions comp regs).funcMap_.find? fun p => p.1 == name) = none ∧
      (FunctionMap.afterSetFunctions comp regs).comp_ = comp := by
  unfold FunctionMap.afterSetFunctions
  induction regs using List.reverseRecOn with
  | nil => simp [FunctionMap.new]
  | append_singleton regs r ih =>
    have hr : r.1 ≠ name := h r (by simp)
    have ih2 := ih fun q hq => h q (by simp [hq])
    simp only [List.foldl_append, List.foldl_cons, List.foldl_nil, FunctionMap.SetFunction]
    refine ⟨?_, ih2.2⟩
    rw [List.find?_cons]
    have : (r.1 == name) = false := by simpa using hr
    simp only [this]
    rw [List.find?_eq_none] at ih2 ⊢
    intro p hp
    exact ih2.1 p (List.mem_filter.1 hp).1

/-- C5: `CallFunction` returns `false` for every name under which no function has been
registered with `SetFunction`, whatever the value argument: on the map obtained from a
new map by any sequence of registrations under other names. -/
theorem C5_CallFunction_unregistered {C V : Type} (comp : C)
    (regs : List (String × (C → V → Bool))) (name : String) (value : V)
    (h : ∀ r ∈ regs, r.1 ≠ name) :
    (FunctionMap.afterSetFunctions comp regs).CallFunction name value = false := by
  unfold FunctionMap.CallFunction
  rw [(FunctionMap.find_afterSetFunctions comp name regs h).1]

/-- C5 at the map of the test, after one registration under another name. -/
theorem C5_CallFunction_unregistered_witness :
    (FunctionMap.afterSetFunctions () [("exist", fun _ (_ : ℚ) => true)]).CallFunction
      "doesntExist" 0 = false :=
  C5_CallFunction_unregistered () [("exist", fun _ (_ : ℚ) => true)] "doesntExist" 0
    (by simp)

/-- C6: for every name and every callback `f`, after `SetFunction(name, f)` the call
`CallFunction(name, v)` returns the result of `f` on the component of the map and `v`;
it returns `true` for a callback that returns `true`. -/
theorem C6_CallFunction_registered {C V : Type} (m : FunctionMap C V) (name : String)
    (f : C → V → Bool) (v : V) :
    (m.SetFunction name f).CallFunction name v = f m.comp_ v ∧
      (m.SetFunction name fun _ _ => true).CallFunction name v = true := by
  simp [FunctionMap.SetFunction, FunctionMap.CallFunction]

/-- C10: in every call of `Update(dt)` on at least two clients the calls are, in this
order: `SetPlayerInput` on client 0 and on client 1 with the sampled inputs, then the
`Update(dt)` of each client exactly once in index order, then the server's `Update(dt)`
exactly once, and nothing else. -/
theorem C10_update_call_order (w : Nat) (fl : PlayerInputFlags) (numClients : Nat)
    (keys : KeyboardState) (dt : ℚ) (h : 2 ≤ numClients) :
    ∃ calls, AsteroidDebugApp.Update w fl numClients keys dt = some calls ∧
      calls.length = numClients + 3 ∧
      calls[0]? = some (Call.SetPlayerInput 0 (clientInput1 w fl keys)) ∧
      calls[1]? = some (Call.SetPlayerInput 1 (clientInput2 w fl keys)) ∧
      (∀ i, i < numClients → calls[2 + i]? = some (Call.ClientUpdate i dt)) ∧
      calls[2 + numClients]? = some (Call.ServerUpdate dt) ∧
      (∀ i, i < numClients → calls.count (Call.ClientUpdate i dt) = 1) ∧
      calls.count (Call.ServerUpdate dt) = 1 := by
  have h0 : 0 < numClients := by omega
  have h1 : 1 < numClients := by omega
  refine ⟨_, by simp only [AsteroidDebugApp.Update, h0, h1, if_true, updateClients_eq]; rfl,
    ?_, ?_, ?_, ?_, ?_, ?_, ?_⟩
  · simp
  · simp
  · simp
  · intro i hi
    rw [Nat.add_comm 2 i]
    simp [List.getElem?_append_left, hi, List.getElem?_range]
  · rw [Nat.add_comm 2 numClients]
    simp [List.getElem?_append_right]
  · intro i hi
    simp only [List.nil_append, List.cons_append, List.append_assoc, List.count_cons,
      List.count_append, List.count_nil]
    have hc : List.count (Call.ClientUpdate i dt)
        (List.map (fun i => Call.ClientUpdate i dt) (List.range numClients)) = 1 := by
      rw [List.count_eq_one_of_mem]
      · exact (List.nodup_range numClients).map fun a b hab => by simpa using hab
      · exact List.mem_map.2 ⟨i, List.mem_range.2 hi, rfl⟩
    simp [hc]
  · simp only [List.nil_append, List.cons_append, List.append_assoc, List.count_cons,
      List.count_append, List.count_nil]
    have hc : List.count (Call.ServerUpdate dt)
        (List.map (fun i => Call.ClientUpdate i dt) (List.range numClients)) = 0 := by
      rw [List.count_eq_zero]
      simp
    simp [hc]

/-- C10 for the two clients of the application. -/
theorem C10_update_call_order_witness :
    (2 : Nat) ≤ 2 ∧
    ∃ calls, AsteroidDebugApp.Update 8 asteroidFlags 2 sampleKeys (1 / 50) = some calls ∧
      calls.length = 2 + 3 ∧
      calls[0]? = some (Call.SetPlayerInput 0 (clientInput1 8 asteroidFlags sampleKeys)) ∧
      calls[1]? = some (Call.SetPlayerInput 1 (clientInput2 8 asteroidFlags sampleKeys)) ∧
      (∀ i, i < 2 → calls[2 + i]? = some (Call.ClientUpdate i (1 / 50))) ∧
      calls[2 + 2]? = some (Call.ServerUpdate (1 / 50)) ∧
      (∀ i, i < 2 → calls.count (Call.ClientUpdate i (1 / 50)) = 1) ∧
      calls.count (Call.ServerUpdate (1 / 50)) = 1 :=
  ⟨le_refl 2, C10_update_call_order 8 asteroidFlags 2 sampleKeys (1 / 50) (le_refl 2)⟩

/-- The ring of a buffer has a positive capacity. -/
theorem InputFrameBuffer.buffer_capacity_pos (b : InputFrameBuffer) : 0 < b.ring.length :=
  List.length_pos.2 b.ring_ne

/-- The ring of a snapshot store has a positive capacity. -/
theorem SnapshotStore.store_capacity_pos {W : Type} (st : SnapshotStore W) : 0 < st.ring.length :=
  List.length_pos.2 st.ring_ne

/-- Two distinct ticks less than a capacity apart fall into different ring slots. -/
theorem ring_slot_ne {c k t : Nat} (h1 : k < t) (h2 : t < k + c) : t % c ≠ k % c := by
  intro h
  have hd : c ∣ t - k := (Nat.modEq_iff_dvd' (le_of_lt h1)).1 h.symm
  have hz : t - k = 0 := Nat.eq_zero_of_dvd_of_lt hd (by omega)
  omega

/-- A snapshot just stored is available. -/
theorem SnapshotStore.Fetch_Store_self {W : Type} (st : SnapshotStore W) (t : Nat) (w : W) :
    (st.Store t w).Fetch t = some w := by
  have hlt : t % st.ring.length < st.ring.length := Nat.mod_lt _ st.store_capacity_pos
  simp [SnapshotStore.Fetch, SnapshotStore.Store, List.getElem?_set_self hlt]

/-- Storing a later tick inside the window keeps an earlier snapshot. -/
theorem SnapshotStore.Fetch_Store_of_lt {W : Type} (st : SnapshotStore W) (k t : Nat) (w : W)
    (h1 : k < t) (h2 : t < k + st.ring.length) :
    (st.Store t w).Fetch k = st.Fetch k := by
  have hne := ring_slot_ne h1 h2
  simp [SnapshotStore.Fetch, SnapshotStore.Store, List.getElem?_set_ne hne]

/-- Storing keeps the capacity. -/
theorem SnapshotStore.length_Store {W : Type} (st : SnapshotStore W) (t : Nat) (w : W) :
    (st.Store t w).ring.length = st.ring.length := by
  simp [SnapshotStore.Store]

/-- Resimulation keeps the capacity. -/
theorem length_resimulate {W : Type} (sim : W → List Nat → W) (b : InputFrameBuffer)
    (numSlots n : Nat) (t : Nat) (w : W) (st : SnapshotStore W) :
    (resimulate sim b numSlots n t w st).ring.length = st.ring.length := by
  induction n generalizing t w st with
  | zero => rfl
  | succ n ih => simp [resimulate, ih, SnapshotStore.length_Store]

/-- Resimulating the ticks after `t` keeps the snapshot of a tick at or below `t` that
stays inside the window. -/
theorem Fetch_resimulate_of_le {W : Type} (sim : W → List Nat → W) (b : InputFrameBuffer)
    (numSlots n : Nat) (t : Nat) (w : W) (st : SnapshotStore W) (k : Nat)
    (h1 : k ≤ t) (h2 : t + n < k + st.ring.length) :
    (resimulate sim b numSlots n t w st).Fetch k = st.Fetch k := by
  induction n generalizing t w st with
  | zero => rfl
  | succ n ih =>
    simp only [resimulate]
    rw [ih (t + 1) _ _ (by omega) (by rw [SnapshotStore.length_Store]; omega)]
    exact SnapshotStore.Fetch_Store_of_lt st k (t + 1) _ (by omega) (by omega)

/-- Resimulation through the server's frames stores the server's worlds. -/
theorem Fetch_resimulate {W : Type} (sim : W → List Nat → W) (b : InputFrameBuffer)
    (numSlots : Nat) (w0 : W) (frames : Nat → List Nat) (n : Nat) (t : Nat)
    (st : SnapshotStore W)
    (hf : ∀ k, t < k → k ≤ t + n → mergedFrame b numSlots k = frames k)
    (k : Nat) (h1 : t < k) (h2 : k ≤ t + n) (h3 : t + n < k + st.ring.length) :
    (resimulate sim b numSlots n t (serverState sim w0 frames t) st).Fetch k =
      some (serverState sim w0 frames k) := by
  induction n generalizing t st with
  | zero => omega
  | succ n ih =>
    simp only [resimulate]
    rw [hf (t + 1) (by omega) (by omega)]
    have hs : sim (serverState sim w0 frames t) (frames (t + 1)) =
        serverState sim w0 frames (t + 1) := rfl
    rw [hs]
    by_cases hk : k = t + 1
    · subst hk
      rw [Fetch_resimulate_of_le sim b numSlots n (t + 1) _ _ (t + 1) (le_refl _)
        (by rw [SnapshotStore.length_Store]; omega)]
      exact SnapshotStore.Fetch_Store_self _ _ _
    · exact ih (t + 1) _ (fun j hj1 hj2 => hf j (by omega) (by omega)) (by omega) (by omega)
        (by rw [SnapshotStore.length_Store]; omega)

/-- The rollback point is at or below the tick the search starts from, and its snapshot
is the one the store holds. -/
theorem nearestAvailable_spec {W : Type} (st : SnapshotStore W) (depth : Nat) (t r : Nat)
    (w : W) (h : nearestAvailable st depth t = some (r, w)) : r ≤ t ∧ st.Fetch r = some w := by
  induction depth generalizing t with
  | zero => simp [nearestAvailable] at h
  | succ depth ih =>
    rw [nearestAvailable] at h
    cases hF : st.Fetch t with
    | some w1 =>
      rw [hF] at h
      simp only [Option.some.injEq, Prod.mk.injEq] at h
      obtain ⟨rfl, rfl⟩ := h
      exact ⟨le_refl _, hF⟩
    | none =>
      rw [hF] at h
      by_cases ht : t = 0
      · simp [ht] at h
      · simp only [ht, if_false] at h
        have := ih (t - 1) h
        exact ⟨by omega, this.2⟩

/-- An input just recorded is the one read back. -/
theorem InputFrameBuffer.GetInput_SetInput_self (b : InputFrameBuffer) (tick slot input : Nat)
    (h : ¬ tick < b.horizon) :
    (b.SetInput tick slot input).2.GetInput tick slot = some input := by
  have hlt : tick % b.ring.length < b.ring.length := Nat.mod_lt _ b.buffer_capacity_pos
  simp [InputFrameBuffer.SetInput, InputFrameBuffer.GetInput, InputFrameBuffer.frameAt, h,
    List.getElem?_set_self hlt, frameSet]

/-- A frame at or below the confirmed tick changes nothing. -/
theorem onConfirmedFrame_of_le {W : Type} (sim : W → List Nat → W) (s : ClientState W)
    (f : ServerConfirmedFrame) (h : f.tick ≤ s.confirmedTick) : onConfirmedFrame sim s f = s := by
  unfold onConfirmedFrame
  by_cases hd : s.status = ClientStatus.Desynced
  · simp [hd]
  · simp [hd, h]

/-- A desynced client ignores confirmed frames. -/
theorem onConfirmedFrame_of_desynced {W : Type} (sim : W → List Nat → W) (s : ClientState W)
    (f : ServerConfirmedFrame) (h : s.status = ClientStatus.Desynced) :
    onConfirmedFrame sim s f = s := by
  simp [onConfirmedFrame, h]

/-- C7: idempotence of confirmation: for every client state and every server-confirmed
frame whose tick the client has already confirmed, applying the frame leaves the whole
client state (confirmed tick, predicted tick, input buffer, snapshots) unchanged; and
for every client state and frame, applying the frame a second time changes nothing. -/
theorem C7_confirmation_idempotent {W : Type} (sim : W → List Nat → W) (s : ClientState W)
    (f : ServerConfirmedFrame) :
    (f.tick ≤ s.confirmedTick → onConfirmedFrame sim s f = s) ∧
      onConfirmedFrame sim (onConfirmedFrame sim s f) f = onConfirmedFrame sim s f := by
  refine ⟨onConfirmedFrame_of_le sim s f, ?_⟩
  by_cases hd : s.status = ClientStatus.Desynced
  · rw [onConfirmedFrame_of_desynced sim s f hd, onConfirmedFrame_of_desynced sim s f hd]
  by_cases hc : f.tick ≤ s.confirmedTick
  · rw [onConfirmedFrame_of_le sim s f hc, onConfirmedFrame_of_le sim s f hc]
  by_cases hp : s.predictedTick < f.tick
  · have h1 : onConfirmedFrame sim s f = s := by simp [onConfirmedFrame, hd, hc, hp]
    rw [h1, h1]
  by_cases hm : mergedFrame s.inputs s.numSlots f.tick = f.inputFrame
  · have h1 : onConfirmedFrame sim s f = { s with confirmedTick := f.tick } := by
      simp [onConfirmedFrame, hd, hc, hp, hm]
    rw [h1]
    exact onConfirmedFrame_of_le sim _ f (le_refl _)
  · cases hn : nearestAvailable s.snapshots s.snapshots.ring.length s.confirmedTick with
    | none =>
      have h1 : onConfirmedFrame sim s f = { s with status := ClientStatus.Desynced } := by
        simp [onConfirmedFrame, hd, hc, hp, hm, hn]
      rw [h1]
      exact onConfirmedFrame_of_desynced sim _ f rfl
    | some rw0 =>
      obtain ⟨r, w⟩ := rw0
      have h1 : onConfirmedFrame sim s f =
          { s with
            confirmedTick := f.tick
            inputs := recordFrame s.inputs f.tick f.inputFrame
            snapshots := resimulate sim (recordFrame s.inputs f.tick f.inputFrame) s.numSlots
              (s.predictedTick - r) r w s.snapshots } := by
        simp [onConfirmedFrame, hd, hc, hp, hm, hn]
      rw [h1]
      exact onConfirmedFrame_of_le sim _ f (le_refl _)

/-- C7 at a client that has confirmed tick 1 and receives the frame of tick 1 again. -/
theorem C7_confirmation_idempotent_witness :
    sampleFrame.tick ≤ sampleConfirmedClient.confirmedTick ∧
      onConfirmedFrame sampleSim sampleConfirmedClient sampleFrame = sampleConfirmedClient :=
  ⟨by decide,
   (C7_confirmation_idempotent sampleSim sampleConfirmedClient sampleFrame).1 (by decide)⟩

/-- C8: rollback correctness: when a confirmed frame for a tick `T` above the confirmed
tick and at most the predicted tick reveals a misprediction, the rollback point found
inside the rollback window holds the server's world of its tick `r`, and the inputs the
client resimulates with are the authoritative ones for every tick after `r` up to the
predicted tick, then the client is not desynced, has confirmed `T`, and every snapshot
of the resimulated range that the store retains is exactly the world the server
produced for that tick. -/
theorem C8_rollback_reproduces_server {W : Type} (sim : W → List Nat → W) (w0 : W)
    (frames : Nat → List Nat) (s : ClientState W) (f : ServerConfirmedFrame) (r : Nat) (w : W)
    (hs : s.status ≠ ClientStatus.Desynced)
    (hT1 : s.confirmedTick < f.tick) (hT2 : f.tick ≤ s.predictedTick)
    (hmis : mergedFrame s.inputs s.numSlots f.tick ≠ f.inputFrame)
    (hr : nearestAvailable s.snapshots s.snapshots.ring.length s.confirmedTick = some (r, w))
    (hw : w = serverState sim w0 frames r)
    (hauth : ∀ k, r < k → k ≤ s.predictedTick →
      mergedFrame (recordFrame s.inputs f.tick f.inputFrame) s.numSlots k = frames k) :
    (onConfirmedFrame sim s f).status = s.status ∧
      (onConfirmedFrame sim s f).confirmedTick = f.tick ∧
      ∀ k, r < k → k ≤ s.predictedTick → s.predictedTick < k + s.snapshots.ring.length →
        (onConfirmedFrame sim s f).snapshots.Fetch k = some (serverState sim w0 frames k) := by
  have hc : ¬ f.tick ≤ s.confirmedTick := by omega
  have hp : ¬ s.predictedTick < f.tick := by omega
  have h1 : onConfirmedFrame sim s f =
      { s with
        confirmedTick := f.tick
        inputs := recordFrame s.inputs f.tick f.inputFrame
        snapshots := resimulate sim (recordFrame s.inputs f.tick f.inputFrame) s.numSlots
          (s.predictedTick - r) r w s.snapshots } := by
    simp [onConfirmedFrame, hs, hc, hp, hmis, hr]
  have hrle : r ≤ s.confirmedTick := (nearestAvailable_spec _ _ _ _ _ hr).1
  rw [h1]
  refine ⟨rfl, rfl, ?_⟩
  intro k hk1 hk2 hk3
  subst hw
  have hsum : r + (s.predictedTick - r) = s.predictedTick := by omega
  exact Fetch_resimulate sim _ s.numSlots w0 frames (s.predictedTick - r) r s.snapshots
    (fun j hj1 hj2 => hauth j hj1 (by omega)) k hk1 (by omega) (by omega)

/-- C8 on the sample client: the frame of tick 1 corrects the input of slot 1, and the
snapshots of ticks 1 and 2 become the server's worlds. -/
theorem C8_rollback_reproduces_server_witness :
    mergedFrame sampleClient.inputs sampleClient.numSlots sampleFrame.tick ≠
        sampleFrame.inputFrame ∧
      sampleClient.snapshots.Fetch 2 = some 522 ∧
      serverState sampleSim 5 sampleServerFrames 2 = 566 ∧
      (onConfirmedFrame sampleSim sampleClient sampleFrame).snapshots.Fetch 2 =
        some (serverState sampleSim 5 sampleServerFrames 2) :=
  ⟨by decide, by decide, by decide,
   (C8_rollback_reproduces_server sampleSim 5 sampleServerFrames sampleClient sampleFrame 0 5
      (by decide) (by decide) (by decide) (by decide) (by decide) (by decide)
      (by
        intro k h1 h2
        have h2 : k ≤ 2 := h2
        interval_cases k <;> decide)).2.2 2 (by decide) (by decide) (by decide)⟩

/-- C9: `SetInput(tick, playerSlot, input)` signals `StaleTick` and leaves the buffer
unchanged if and only if `tick` is older than the eviction horizon of the buffer;
otherwise it signals nothing and records the input, so that `GetInput(tick, playerSlot)`
returns it. -/
theorem C9_SetInput_stale_or_recorded (b : InputFrameBuffer) (tick playerSlot input : Nat) :
    (((b.SetInput tick playerSlot input).1 = some Signal.StaleTick ∧
        (b.SetInput tick playerSlot input).2 = b) ↔ tick < b.horizon) ∧
      (¬ tick < b.horizon →
        (b.SetInput tick playerSlot input).1 = none ∧
          (b.SetInput tick playerSlot input).2.GetInput tick playerSlot = some input) := by
  constructor
  · constructor
    · intro h
      by_contra hn
      simp [InputFrameBuffer.SetInput, hn] at h
    · intro h
      simp [InputFrameBuffer.SetInput, h]
  · intro h
    exact ⟨by simp [InputFrameBuffer.SetInput, h],
      InputFrameBuffer.GetInput_SetInput_self b tick playerSlot input h⟩

/-- C9 on concrete buffers: tick 9 is recorded in a buffer with horizon 0 (in the ring
slot that held tick 1), and rejected by a buffer with horizon 10. -/
theorem C9_SetInput_stale_or_recorded_witness :
    ((sampleInputs.SetInput 9 1 3).1 = none ∧
        (sampleInputs.SetInput 9 1 3).2.GetInput 9 1 = some 3) ∧
      ((sampleLateInputs.SetInput 9 1 3).1 = some Signal.StaleTick ∧
        (sampleLateInputs.SetInput 9 1 3).2 = sampleLateInputs) :=
  ⟨(C9_SetInput_stale_or_recorded sampleInputs 9 1 3).2 (by decide),
   (C9_SetInput_stale_or_recorded sampleLateInputs 9 1 3).1.2 (by decide)⟩

/-- The flip does not look at the player number: for every player number it leaves the
rotation of `flippedRotation` in the local body, and a physics manager that the final
`SetBody` of the iteration overwrites in the same way. -/
theorem flipCharacter_eq (pm : PhysicsManager) (e : Entity) (p : Nat) (left right : Bool)
    (body : Body) (he : e < pm.bodies_.length) :
    ∃ pm1, flipCharacter pm e p left right body =
        some ({ body with rotation := flippedRotation left right body.rotation }, pm1) ∧
      pm1.bodies_.length = pm.bodies_.length ∧
      ∀ b, pm1.bodies_.set e b = pm.bodies_.set e b := by
  have h180 : (180 : ℚ) ≠ 0 := by norm_num
  unfold flipCharacter flippedRotation PhysicsManager.SetBody
  by_cases hp : p = 1 <;> by_cases h0 : body.rotation = 0 <;>
    by_cases h1 : body.rotation = 180 <;> cases left <;> cases right <;>
    simp [hp, h0, h1, he, h180, List.set_set] <;>
    first
      | exact ⟨pm, rfl, rfl, fun _ => rfl⟩
      | (rw [h0] at h1; exact absurd h1.symm h180)
      | (refine ⟨pm, ⟨?_, rfl⟩, rfl, fun _ => rfl⟩; cases body; simp_all)

/-- Writing back the element a slot holds changes nothing. -/
theorem set_of_getElem? {α : Type} (l : List α) (e : Nat) (a : α) (h : l[e]? = some a) :
    l.set e a = l := by
  apply List.ext_getElem?
  intro j
  rw [List.getElem?_set]
  by_cases hj : e = j
  · subst hj
    have hlt : e < l.length := (List.getElem?_eq_some_iff.1 h).1
    simp [hlt, h]
  · simp [hj]

/-- The loop iteration of an entity that is no player changes nothing. -/
theorem fixedUpdateEntity_nonplayer (fl : PlayerInputFlags) (m : Nat) (em : EntityManager)
    (dt : ℚ) (st : SimState) (e : Entity) (h : em.HasComponent e m = false) :
    fixedUpdateEntity fl m em dt st e = some st := by
  simp [fixedUpdateEntity, h]

/-- The loop iteration of a player entity writes the slots of `playerStep` and nothing
else. -/
theorem fixedUpdateEntity_player (fl : PlayerInputFlags) (m : Nat) (em : EntityManager)
    (dt : ℚ) (st : SimState) (e : Entity) (body : Body) (pc : PlayerCharacter)
    (h : em.HasComponent e m = true) (hb : st.1.bodies_[e]? = some body)
    (hc : st.2.components_[e]? = some pc) :
    fixedUpdateEntity fl m em dt st e =
      some (⟨st.1.bodies_.set e (playerStep fl dt body pc).1⟩,
        { st.2 with components_ := st.2.components_.set e (playerStep fl dt body pc).2 }) := by
  have hbl : e < st.1.bodies_.length := (List.getElem?_eq_some_iff.1 hb).1
  have hcl : e < st.2.components_.length := (List.getElem?_eq_some_iff.1 hc).1
  obtain ⟨pm1, hflip, hlen, hset⟩ := flipCharacter_eq st.1 e pc.playerNumber
    (pc.input &&& fl.LEFT != 0) (pc.input &&& fl.RIGHT != 0) body hbl
  have hl1 : e < pm1.bodies_.length := by rw [hlen]; exact hbl
  unfold fixedUpdateEntity
  simp only [h, Bool.true_eq_false, if_false, PhysicsManager.GetBody,
    PlayerCharacterManager.GetComponent, hb, hc, Option.some_bind, hflip]
  unfold playerStep
  by_cases hi : pc.invincibilityTime > 0
  · simp only [hi, if_true, PlayerCharacterManager.SetComponent, hcl, Option.some_bind,
      PhysicsManager.SetBody, hl1, Option.map_some', hset]
  · simp only [hi, if_false, PhysicsManager.SetBody, hl1, if_true, Option.map_some', hset,
      set_of_getElem? _ _ _ hc]

/-- An entity index at or beyond `GetEntitiesSize` is no player entity. -/
theorem HasComponent_of_size_le (em : EntityManager) (e m : Nat)
    (h : em.GetEntitiesSize ≤ e) : em.HasComponent e m = false := by
  unfold EntityManager.HasComponent
  rw [List.getElem?_eq_none (by simpa [EntityManager.GetEntitiesSize] using h)]

/-- One loop iteration on an entity that has both slots returns, keeps the sizes of the
arrays, rewrites the slots of that entity as `slotStep` says and keeps every other
slot. -/
theorem fixedUpdateEntity_slots (fl : PlayerInputFlags) (m : Nat) (em : EntityManager)
    (dt : ℚ) (st : SimState) (e : Nat) (hb : e < st.1.bodies_.length)
    (hc : e < st.2.components_.length) :
    ∃ st1, fixedUpdateEntity fl m em dt st e = some st1 ∧
      st1.1.bodies_.length = st.1.bodies_.length ∧
      st1.2.components_.length = st.2.components_.length ∧
      ∀ j : Nat, slots st1 j = if j = e then slotStep fl m em dt e (slots st e) else slots st j := by
  by_cases h : em.HasComponent e m = true
  · obtain ⟨body, hbody⟩ : ∃ body, st.1.bodies_[e]? = some body :=
      ⟨_, List.getElem?_eq_getElem hb⟩
    obtain ⟨pc, hpc⟩ : ∃ pc, st.2.components_[e]? = some pc :=
      ⟨_, List.getElem?_eq_getElem hc⟩
    refine ⟨_, fixedUpdateEntity_player fl m em dt st e body pc h hbody hpc, by simp, by simp,
      ?_⟩
    intro j
    by_cases hj : j = e
    · subst hj
      simp [slots, slotStep, h, PhysicsManager.GetBody, PlayerCharacterManager.GetComponent,
        hbody, hpc, hb, hc]
    · have hne : e ≠ j := fun h => hj h.symm
      simp [slots, hj, PhysicsManager.GetBody, PlayerCharacterManager.GetComponent,
        List.getElem?_set_ne hne]
  · rw [Bool.not_eq_true] at h
    refine ⟨st, fixedUpdateEntity_nonplayer fl m em dt st e h, rfl, rfl, ?_⟩
    intro j
    by_cases hj : j = e
    · subst hj
      simp [slotStep, h]
    · simp [hj]

/-- The first `n` iterations of the loop on a well-formed state return, keep the sizes
of the arrays, rewrite the slots of the entities below `n` as `slotStep` says and keep
every other slot. -/
theorem foldlM_range_slots (fl : PlayerInputFlags) (m : Nat) (em : EntityManager) (dt : ℚ)
    (st : SimState) (hwf : WellFormed em st) (n : Nat) (hn : n ≤ em.GetEntitiesSize) :
    ∃ st1, (List.range n).foldlM (fixedUpdateEntity fl m em dt) st = some st1 ∧
      st1.1.bodies_.length = st.1.bodies_.length ∧
      st1.2.components_.length = st.2.components_.length ∧
      ∀ j : Nat, slots st1 j = if j < n then slotStep fl m em dt j (slots st j) else slots st j := by
  induction n with
  | zero => exact ⟨st, rfl, rfl, rfl, fun j => by simp⟩
  | succ n ih =>
    obtain ⟨st1, h1, hl1, hl2, hs1⟩ := ih (by omega)
    obtain ⟨hw1, hw2⟩ := hwf
    obtain ⟨st2, h2, hl3, hl4, hs2⟩ := fixedUpdateEntity_slots fl m em dt st1 n
      (by omega) (by omega)
    refine ⟨st2, ?_, by omega, by omega, ?_⟩
    · rw [List.range_succ, List.foldlM_append, h1]
      simp [h2]
    · intro j
      rw [hs2 j]
      by_cases hj : j = n
      · subst hj
        simp [hs1 j]
      · have : (j < n + 1) = (j < n) := by
          apply propext
          omega
        simp only [hj, if_false, hs1 j, this]

/-- On a well-formed state `FixedUpdate` returns, keeps the sizes of the arrays, and
leaves in the slots of every entity what `slotStep` says. -/
theorem FixedUpdate_slots (fl : PlayerInputFlags) (m : Nat) (em : EntityManager) (dt : ℚ)
    (st : SimState) (hwf : WellFormed em st) :
    ∃ st1, FixedUpdate fl m em dt st = some st1 ∧
      st1.1.bodies_.length = st.1.bodies_.length ∧
      st1.2.components_.length = st.2.components_.length ∧
      ∀ j : Nat, slots st1 j = slotStep fl m em dt j (slots st j) := by
  obtain ⟨st1, h1, hl1, hl2, hs⟩ :=
    foldlM_range_slots fl m em dt st hwf em.GetEntitiesSize (le_refl _)
  refine ⟨st1, h1, hl1, hl2, ?_⟩
  intro j
  rw [hs j]
  by_cases hj : j < em.GetEntitiesSize
  · simp [hj]
  · simp [hj, slotStep, HasComponent_of_size_le em j m (by omega)]

/-- On a well-formed state `FixedUpdate` returns and leaves in the slots of a player
entity the body and the component of `playerStep`. -/
theorem FixedUpdate_player (fl : PlayerInputFlags) (m : Nat) (em : EntityManager) (dt : ℚ)
    (st : SimState) (e : Nat) (body : Body) (pc : PlayerCharacter) (hwf : WellFormed em st)
    (he : em.HasComponent e m = true) (hb : st.1.GetBody e = some body)
    (hc : st.2.GetComponent e = some pc) :
    ∃ st1, FixedUpdate fl m em dt st = some st1 ∧
      st1.1.GetBody e = some (playerStep fl dt body pc).1 ∧
      st1.2.GetComponent e = some (playerStep fl dt body pc).2 := by
  obtain ⟨st1, h1, -, -, hs⟩ := FixedUpdate_slots fl m em dt st hwf
  have h := hs e
  simp only [slots, slotStep, he, if_true, hb, hc, Prod.mk.injEq] at h
  exact ⟨st1, h1, h.1, h.2⟩

/-- On a well-formed state `FixedUpdate` returns and keeps the slots of an entity that is
no player. -/
theorem FixedUpdate_nonplayer (fl : PlayerInputFlags) (m : Nat) (em : EntityManager) (dt : ℚ)
    (st : SimState) (hwf : WellFormed em st) :
    ∃ st1, FixedUpdate fl m em dt st = some st1 ∧
      ∀ e : Nat, em.HasComponent e m = false →
        st1.1.GetBody e = st.1.GetBody e ∧ st1.2.GetComponent e = st.2.GetComponent e := by
  obtain ⟨st1, h1, -, -, hs⟩ := FixedUpdate_slots fl m em dt st hwf
  refine ⟨st1, h1, ?_⟩
  intro e he
  have h := hs e
  simp only [slots, slotStep, he, Bool.false_eq_true, if_false, Prod.mk.injEq] at h
  exact h

/-- C12 (as the code behaves): the flip does not depend on the player number: for two
well-formed worlds in which a player entity has the same body and the same input, with
player number 1 in the first and any player number in the second, `FixedUpdate` returns
on both and leaves the same rotation in the body of the entity.  So there is no rotation
and input for which player number 1 ends with a different rotation than another. -/
theorem C12_flip_ignores_player_number (fl : PlayerInputFlags) (PLAYER_CHARACTER : Nat)
    (em : EntityManager) (dt : ℚ) (st1 st2 : SimState) (e : Nat) (body : Body)
    (c1 c2 : PlayerCharacter) (hwf1 : WellFormed em st1) (hwf2 : WellFormed em st2)
    (he : em.HasComponent e PLAYER_CHARACTER = true)
    (hb1 : st1.1.GetBody e = some body) (hb2 : st2.1.GetBody e = some body)
    (hc1 : st1.2.GetComponent e = some c1) (hc2 : st2.2.GetComponent e = some c2)
    (hp : c1.playerNumber = 1) (hin : c1.input = c2.input) :
    ∃ r1 r2 b1 b2, FixedUpdate fl PLAYER_CHARACTER em dt st1 = some r1 ∧
      FixedUpdate fl PLAYER_CHARACTER em dt st2 = some r2 ∧
      r1.1.GetBody e = some b1 ∧ r2.1.GetBody e = some b2 ∧ b1.rotation = b2.rotation := by
  obtain ⟨r1, h1, hb1', -⟩ :=
    FixedUpdate_player fl PLAYER_CHARACTER em dt st1 e body c1 hwf1 he hb1 hc1
  obtain ⟨r2, h2, hb2', -⟩ :=
    FixedUpdate_player fl PLAYER_CHARACTER em dt st2 e body c2 hwf2 he hb2 hc2
  refine ⟨r1, r2, _, _, h1, h2, hb1', hb2', ?_⟩
  have hp1 := hp
  unfold playerStep
  rw [hin]
  by_cases hi1 : c1.invincibilityTime > 0 <;> by_cases hi2 : c2.invincibilityTime > 0 <;>
    simp [hi1, hi2]

/-- C12 on the sample world: with rotation 0 and RIGHT pressed, player number 1 and
player number 2 end with the same rotation. -/
theorem C12_flip_ignores_player_number_witness :
    ∃ r1 r2 b1 b2, FixedUpdate asteroidFlags 1024 sampleEntities (1 / 50) sampleState = some r1 ∧
      FixedUpdate asteroidFlags 1024 sampleEntities (1 / 50) sampleStateOtherNumber = some r2 ∧
      r1.1.GetBody 0 = some b1 ∧ r2.1.GetBody 0 = some b2 ∧ b1.rotation = b2.rotation :=
  C12_flip_ignores_player_number asteroidFlags 1024 sampleEntities (1 / 50) sampleState
    sampleStateOtherNumber 0 ⟨⟨0, 0⟩, ⟨1, 1⟩, 0⟩ ⟨8, 1, 0⟩ ⟨8, 2, 0⟩ (by decide) (by decide)
    (by decide) rfl rfl rfl rfl rfl rfl

/-- C13: the flip rule of `FixedUpdate`: for every player entity of a well-formed world
the update returns and, in the body of the entity, a rotation of 0 with RIGHT pressed
becomes 180, a rotation of 180 with LEFT pressed becomes 0, and in every other case the
rotation is unchanged; hence a rotation that is 0 or 180 stays 0 or 180, and any other
rotation is never changed. -/
theorem C13_flip_rule (fl : PlayerInputFlags) (PLAYER_CHARACTER : Nat) (em : EntityManager)
    (dt : ℚ) (st : SimState) (e : Nat) (body : Body) (pc : PlayerCharacter)
    (hwf : WellFormed em st) (he : em.HasComponent e PLAYER_CHARACTER = true)
    (hb : st.1.GetBody e = some body) (hc : st.2.GetComponent e = some pc) :
    ∃ st1 body1, FixedUpdate fl PLAYER_CHARACTER em dt st = some st1 ∧
      st1.1.GetBody e = some body1 ∧
      (body.rotation = 0 → pc.input &&& fl.RIGHT ≠ 0 → body1.rotation = 180) ∧
      (body.rotation = 180 → pc.input &&& fl.LEFT ≠ 0 → body1.rotation = 0) ∧
      (¬ (body.rotation = 0 ∧ pc.input &&& fl.RIGHT ≠ 0) →
        ¬ (body.rotation = 180 ∧ pc.input &&& fl.LEFT ≠ 0) →
        body1.rotation = body.rotation) ∧
      (body.rotation = 0 ∨ body.rotation = 180 → body1.rotation = 0 ∨ body1.rotation = 180) ∧
      (body.rotation ≠ 0 → body.rotation ≠ 180 → body1.rotation = body.rotation) := by
  obtain ⟨st1, h1, h2, -⟩ := FixedUpdate_player fl PLAYER_CHARACTER em dt st e body pc hwf he hb hc
  have h180 : (180 : ℚ) ≠ 0 := by norm_num
  have hrot : (playerStep fl dt body pc).1.rotation =
      flippedRotation (pc.input &&& fl.LEFT != 0) (pc.input &&& fl.RIGHT != 0)
        body.rotation := by
    unfold playerStep
    by_cases hi : pc.invincibilityTime > 0 <;> simp [hi]
  refine ⟨st1, _, h1, h2, ?_, ?_, ?_, ?_, ?_⟩ <;> rw [hrot] <;> unfold flippedRotation
  · intro h0 hr
    simp [h0, hr]
  · intro h0 hl
    simp [h0, hl, h180]
  · intro n1 n2
    have n1' : ¬ (body.rotation = 0 ∧ (pc.input &&& fl.RIGHT != 0) = true) := by
      simpa using n1
    have n2' : ¬ (body.rotation = 180 ∧ (pc.input &&& fl.LEFT != 0) = true) := by
      simpa using n2
    simp only [n1', n2', if_false]
  · intro h
    split_ifs <;> simp_all
  · intro n0 n180
    simp [n0, n180]

/-- C13 on the sample world: player entity 0 has rotation 0 and presses RIGHT. -/
theorem C13_flip_rule_witness :
    ∃ st1 body1, FixedUpdate asteroidFlags 1024 sampleEntities (1 / 50) sampleState = some st1 ∧
      st1.1.GetBody 0 = some body1 ∧ body1.rotation = 180 := by
  obtain ⟨st1, body1, h1, h2, h3, -⟩ :=
    C13_flip_rule asteroidFlags 1024 sampleEntities (1 / 50) sampleState 0
      ⟨⟨0, 0⟩, ⟨1, 1⟩, 0⟩ ⟨8, 1, 0⟩ (by decide) (by decide) rfl rfl
  exact ⟨st1, body1, h1, h2, h3 rfl (by decide)⟩

/-- C14: the velocity update of `FixedUpdate` over exact arithmetic: for every player
entity of a well-formed world whose invincibilityTime is at most 0 the update returns,
the new velocity is (vx + dir * dt, vy + jump), where dir is 4 when only LEFT is pressed,
-4 when only RIGHT is pressed and 0 when both or neither are, and jump is 0.9 when UP is
pressed and -0.7 otherwise, not scaled by dt; the player-character component is
unchanged. -/
theorem C14_velocity_update (fl : PlayerInputFlags) (PLAYER_CHARACTER : Nat)
    (em : EntityManager) (dt : ℚ) (st : SimState) (e : Nat) (body : Body)
    (pc : PlayerCharacter) (hwf : WellFormed em st)
    (he : em.HasComponent e PLAYER_CHARACTER = true) (hb : st.1.GetBody e = some body)
    (hc : st.2.GetComponent e = some pc) (hi : pc.invincibilityTime ≤ 0) :
    ∃ st1 body1, FixedUpdate fl PLAYER_CHARACTER em dt st = some st1 ∧
      st1.1.GetBody e = some body1 ∧
      body1.velocity =
        ⟨body.velocity.x +
            (if pc.input &&& fl.LEFT ≠ 0 ∧ pc.input &&& fl.RIGHT = 0 then 4
             else if pc.input &&& fl.RIGHT ≠ 0 ∧ pc.input &&& fl.LEFT = 0 then -4
             else 0) * dt,
          body.velocity.y + (if pc.input &&& fl.UP ≠ 0 then 9 / 10 else -(7 / 10))⟩ ∧
      st1.2.GetComponent e = some pc := by
  obtain ⟨st1, h1, h2, h3⟩ := FixedUpdate_player fl PLAYER_CHARACTER em dt st e body pc hwf he hb hc
  have hi' : ¬ pc.invincibilityTime > 0 := not_lt.2 hi
  refine ⟨st1, _, h1, h2, ?_, ?_⟩
  · unfold playerStep
    by_cases hl : pc.input &&& fl.LEFT = 0 <;> by_cases hr : pc.input &&& fl.RIGHT = 0 <;>
      by_cases hu : pc.input &&& fl.UP = 0 <;> simp [hi', hl, hr, hu]
  · rw [h3]
    simp [playerStep, hi']

/-- C14 on the sample world: player entity 0 presses only RIGHT, with velocity (1, 1). -/
theorem C14_velocity_update_witness :
    ∃ st1 body1, FixedUpdate asteroidFlags 1024 sampleEntities (1 / 50) sampleState = some st1 ∧
      st1.1.GetBody 0 = some body1 ∧
      body1.velocity = ⟨1 + (-4) * (1 / 50), 1 + -(7 / 10)⟩ ∧
      st1.2.GetComponent 0 = some ⟨8, 1, 0⟩ := by
  obtain ⟨st1, body1, h1, h2, h3, h4⟩ :=
    C14_velocity_update asteroidFlags 1024 sampleEntities (1 / 50) sampleState 0
      ⟨⟨0, 0⟩, ⟨1, 1⟩, 0⟩ ⟨8, 1, 0⟩ (by decide) (by decide) rfl rfl (le_refl 0)
  refine ⟨st1, body1, h1, h2, ?_, h4⟩
  rw [h3]
  have e1 : (8 &&& asteroidFlags.LEFT) = 0 := by decide
  have e2 : (8 &&& asteroidFlags.RIGHT) = 8 := by decide
  have e3 : (8 &&& asteroidFlags.UP) = 0 := by decide
  simp [e1, e2, e3]

/-- C15, refuted as stated: in the sample world the first player has input RIGHT in one
state and RIGHT with DOWN in the other; the two inputs agree on the LEFT, RIGHT and UP
bits, `FixedUpdate` returns on both, and the player-character components it leaves for
that player differ (each keeps its own input). -/
theorem C15_down_shoot_counterexample :
    ((8 : Nat) &&& asteroidFlags.LEFT = 10 &&& asteroidFlags.LEFT ∧
      (8 : Nat) &&& asteroidFlags.RIGHT = 10 &&& asteroidFlags.RIGHT ∧
      (8 : Nat) &&& asteroidFlags.UP = 10 &&& asteroidFlags.UP) ∧
    sampleState.2.GetComponent 0 = some ⟨8, 1, 0⟩ ∧
    sampleStateDown.2.GetComponent 0 = some ⟨10, 1, 0⟩ ∧
    sampleState.1 = sampleStateDown.1 ∧
    ∃ r1 r2, FixedUpdate asteroidFlags 1024 sampleEntities (1 / 50) sampleState = some r1 ∧
      FixedUpdate asteroidFlags 1024 sampleEntities (1 / 50) sampleStateDown = some r2 ∧
      r1.2.GetComponent 0 ≠ r2.2.GetComponent 0 := by
  refine ⟨by decide, rfl, rfl, rfl, ?_⟩
  obtain ⟨r1, h1, -, hc1⟩ := FixedUpdate_player asteroidFlags 1024 sampleEntities (1 / 50)
    sampleState 0 ⟨⟨0, 0⟩, ⟨1, 1⟩, 0⟩ ⟨8, 1, 0⟩ (by decide) (by decide) rfl rfl
  obtain ⟨r2, h2, -, hc2⟩ := FixedUpdate_player asteroidFlags 1024 sampleEntities (1 / 50)
    sampleStateDown 0 ⟨⟨0, 0⟩, ⟨1, 1⟩, 0⟩ ⟨10, 1, 0⟩ (by decide) (by decide) rfl rfl
  refine ⟨r1, r2, h1, h2, ?_⟩
  rw [hc1, hc2]
  simp [playerStep]

/-- C15, amended: the DOWN and SHOOT bits do not influence the simulation step: for two
well-formed worlds in which a player entity has the same body, the same player number
and the same invincibilityTime, and inputs that agree on the LEFT, RIGHT and UP bits,
`FixedUpdate` returns on both, leaves the same body for the entity, and leaves components
with the same player number and the same invincibilityTime, each with its own input. -/
theorem C15_down_shoot_no_influence (fl : PlayerInputFlags) (PLAYER_CHARACTER : Nat)
    (em : EntityManager) (dt : ℚ) (st1 st2 : SimState) (e : Nat) (body : Body)
    (c1 c2 : PlayerCharacter) (hwf1 : WellFormed em st1) (hwf2 : WellFormed em st2)
    (he : em.HasComponent e PLAYER_CHARACTER = true)
    (hb1 : st1.1.GetBody e = some body) (hb2 : st2.1.GetBody e = some body)
    (hc1 : st1.2.GetComponent e = some c1) (hc2 : st2.2.GetComponent e = some c2)
    (hL : c1.input &&& fl.LEFT = c2.input &&& fl.LEFT)
    (hR : c1.input &&& fl.RIGHT = c2.input &&& fl.RIGHT)
    (hU : c1.input &&& fl.UP = c2.input &&& fl.UP)
    (hp : c1.playerNumber = c2.playerNumber)
    (ht : c1.invincibilityTime = c2.invincibilityTime) :
    ∃ r1 r2 b k1 k2, FixedUpdate fl PLAYER_CHARACTER em dt st1 = some r1 ∧
      FixedUpdate fl PLAYER_CHARACTER em dt st2 = some r2 ∧
      r1.1.GetBody e = some b ∧ r2.1.GetBody e = some b ∧
      r1.2.GetComponent e = some k1 ∧ r2.2.GetComponent e = some k2 ∧
      k1.playerNumber = k2.playerNumber ∧ k1.invincibilityTime = k2.invincibilityTime ∧
      k1.input = c1.input ∧ k2.input = c2.input := by
  obtain ⟨r1, h1, hb1', hc1'⟩ :=
    FixedUpdate_player fl PLAYER_CHARACTER em dt st1 e body c1 hwf1 he hb1 hc1
  obtain ⟨r2, h2, hb2', hc2'⟩ :=
    FixedUpdate_player fl PLAYER_CHARACTER em dt st2 e body c2 hwf2 he hb2 hc2
  have hbody : (playerStep fl dt body c1).1 = (playerStep fl dt body c2).1 := by
    unfold playerStep
    simp only [hL, hR, hU, ht]
    by_cases hi : c2.invincibilityTime > 0 <;> simp [hi]
  refine ⟨r1, r2, _, _, _, h1, h2, hb1', hbody ▸ hb2', hc1', hc2', ?_, ?_, ?_, ?_⟩ <;>
    unfold playerStep <;>
    by_cases hi : c2.invincibilityTime > 0 <;> simp [hi, ht, hp]

/-- C15, amended, on the sample world: RIGHT against RIGHT with DOWN. -/
theorem C15_down_shoot_no_influence_witness :
    ∃ r1 r2 b k1 k2,
      FixedUpdate asteroidFlags 1024 sampleEntities (1 / 50) sampleState = some r1 ∧
      FixedUpdate asteroidFlags 1024 sampleEntities (1 / 50) sampleStateDown = some r2 ∧
      r1.1.GetBody 0 = some b ∧ r2.1.GetBody 0 = some b ∧
      r1.2.GetComponent 0 = some k1 ∧ r2.2.GetComponent 0 = some k2 ∧
      k1.playerNumber = k2.playerNumber ∧ k1.invincibilityTime = k2.invincibilityTime ∧
      k1.input = 8 ∧ k2.input = 10 :=
  C15_down_shoot_no_influence asteroidFlags 1024 sampleEntities (1 / 50) sampleState
    sampleStateDown 0 ⟨⟨0, 0⟩, ⟨1, 1⟩, 0⟩ ⟨8, 1, 0⟩ ⟨10, 1, 0⟩ (by decide) (by decide)
    (by decide) rfl rfl rfl rfl (by decide) (by decide) (by decide) rfl rfl

/-- C16: the frame of `FixedUpdate` on a well-formed world: the update returns; an entity
that lacks the PLAYER_CHARACTER component keeps its body and its component; for a player
entity the position of the body and the input and player number of the component are
unchanged (only rotation, velocity and invincibilityTime can change); and the outcome for
an entity is the same in every other well-formed world with the same entity masks in
which that entity has the same body and component, whatever the other entities hold. -/
theorem C16_frame (fl : PlayerInputFlags) (PLAYER_CHARACTER : Nat) (em : EntityManager)
    (dt : ℚ) (st : SimState) (hwf : WellFormed em st) :
    ∃ r, FixedUpdate fl PLAYER_CHARACTER em dt st = some r ∧
      (∀ e : Nat, em.HasComponent e PLAYER_CHARACTER = false →
        r.1.GetBody e = st.1.GetBody e ∧ r.2.GetComponent e = st.2.GetComponent e) ∧
      (∀ (e : Nat) (body : Body) (pc : PlayerCharacter),
        em.HasComponent e PLAYER_CHARACTER = true → st.1.GetBody e = some body →
        st.2.GetComponent e = some pc →
        ∃ body1 pc1, r.1.GetBody e = some body1 ∧ r.2.GetComponent e = some pc1 ∧
          body1.position = body.position ∧ pc1.input = pc.input ∧
          pc1.playerNumber = pc.playerNumber) ∧
      (∀ (st2 : SimState) (e : Nat), WellFormed em st2 → st2.1.GetBody e = st.1.GetBody e →
        st2.2.GetComponent e = st.2.GetComponent e →
        ∃ r2, FixedUpdate fl PLAYER_CHARACTER em dt st2 = some r2 ∧
          r2.1.GetBody e = r.1.GetBody e ∧ r2.2.GetComponent e = r.2.GetComponent e) := by
  obtain ⟨r, h1, -, -, hs⟩ := FixedUpdate_slots fl PLAYER_CHARACTER em dt st hwf
  refine ⟨r, h1, ?_, ?_, ?_⟩
  · intro e he
    have h := hs e
    simp only [slots, slotStep, he, Bool.false_eq_true, if_false, Prod.mk.injEq] at h
    exact h
  · intro e body pc he hb hc
    have h := hs e
    simp only [slots, slotStep, he, if_true, hb, hc, Prod.mk.injEq] at h
    refine ⟨_, _, h.1, h.2, ?_, ?_, ?_⟩ <;> unfold playerStep <;>
      by_cases hi : pc.invincibilityTime > 0 <;> simp [hi]
  · intro st2 e hwf2 hb hc
    obtain ⟨r2, h2, -, -, hs2⟩ := FixedUpdate_slots fl PLAYER_CHARACTER em dt st2 hwf2
    have ha := hs e
    have hb2 := hs2 e
    have hsl : slots st2 e = slots st e := by simp [slots, hb, hc]
    rw [hsl, ← ha] at hb2
    simp only [slots, Prod.mk.injEq] at hb2
    exact ⟨r2, h2, hb2.1, hb2.2⟩

/-- C16 on the sample world: entity 2 is no player and keeps its slots; the renumbered
world agrees with the sample world on entity 1 and gives it the same outcome. -/
theorem C16_frame_witness :
    ∃ r, FixedUpdate asteroidFlags 1024 sampleEntities (1 / 50) sampleState = some r ∧
      r.1.GetBody 2 = sampleState.1.GetBody 2 ∧
      r.2.GetComponent 2 = sampleState.2.GetComponent 2 ∧
      ∃ r2, FixedUpdate asteroidFlags 1024 sampleEntities (1 / 50) sampleStateOtherNumber =
          some r2 ∧
        r2.1.GetBody 1 = r.1.GetBody 1 ∧ r2.2.GetComponent 1 = r.2.GetComponent 1 := by
  obtain ⟨r, h1, h2, -, h4⟩ :=
    C16_frame asteroidFlags 1024 sampleEntities (1 / 50) sampleState (by decide)
  exact ⟨r, h1, (h2 2 (by decide)).1, (h2 2 (by decide)).2,
    h4 sampleStateOtherNumber 1 (by decide) rfl rfl⟩

/-- C17: the assignment `a = b` does not copy the physics manager: after it the manager
at `a` is bound to the physics manager and to the entity manager it was bound to before,
whatever the manager at `b` is bound to. -/
theorem C17_assign_keeps_physics_manager (h : ManagerStore) (a b : Nat) :
    ((assign h a b) a).physicsManager_ = (h a).physicsManager_ ∧
      ((assign h a b) a).entityManager_ = (h a).entityManager_ := by
  simp [assign]

/-- The loop started at entity `e` with `k` entities to go and more fuel than that
behaves as the fold over those entities, and records them in order. -/
theorem fixedUpdateLoop_eq (fl : PlayerInputFlags) (m : Nat) (em : EntityManager) (dt : ℚ)
    (k : Nat) (e : Nat) (st : SimState) (visited : List Entity) (fuel : Nat)
    (hk : e + k = em.GetEntitiesSize) (hf : k < fuel) :
    fixedUpdateLoop fl m em dt fuel e st visited =
      match (List.range' e k).foldlM (fixedUpdateEntity fl m em dt) st with
      | some r => LoopResult.done r (visited ++ List.range' e k)
      | none => LoopResult.fault := by
  induction k generalizing e st visited fuel with
  | zero =>
    obtain ⟨fuel, rfl⟩ : ∃ f, fuel = f + 1 := ⟨fuel - 1, by omega⟩
    have hlt : ¬ e < em.GetEntitiesSize := by omega
    simp [fixedUpdateLoop, hlt]
  | succ k ih =>
    obtain ⟨fuel, rfl⟩ : ∃ f, fuel = f + 1 := ⟨fuel - 1, by omega⟩
    have hlt : e < em.GetEntitiesSize := by omega
    simp only [fixedUpdateLoop, hlt, if_true, List.range'_succ, List.foldlM_cons]
    cases h : fixedUpdateEntity fl m em dt st e with
    | none => rfl
    | some st1 =>
      simp only [Option.some_bind, Option.bind_eq_bind]
      rw [ih (e + 1) st1 (visited ++ [e]) fuel (by omega) (by omega)]
      simp

/-- C18: `FixedUpdate` never fails on a well-formed world: when every entity index below
`GetEntitiesSize` has a body slot and a component slot, then for every `dt` the update
returns a state without an out-of-range access, and the loop as the source writes it
terminates within `GetEntitiesSize + 1` evaluations of its condition with that state,
having entered its body for each entity index below `GetEntitiesSize` exactly once, in
increasing order. -/
theorem C18_FixedUpdate_total (fl : PlayerInputFlags) (PLAYER_CHARACTER : Nat)
    (em : EntityManager) (dt : ℚ) (st : SimState) (hwf : WellFormed em st) :
    ∃ r visited, FixedUpdate fl PLAYER_CHARACTER em dt st = some r ∧
      (∀ fuel, em.GetEntitiesSize < fuel →
        fixedUpdateLoop fl PLAYER_CHARACTER em dt fuel 0 st [] = LoopResult.done r visited) ∧
      visited = List.range em.GetEntitiesSize ∧
      visited.Pairwise (fun a b => a < b) ∧
      (∀ e : Nat, e ∈ visited ↔ e < em.GetEntitiesSize) ∧
      (∀ e : Nat, e < em.GetEntitiesSize → visited.count e = 1) := by
  obtain ⟨r, h1, -⟩ := FixedUpdate_slots fl PLAYER_CHARACTER em dt st hwf
  refine ⟨r, List.range em.GetEntitiesSize, h1, ?_, rfl, List.pairwise_lt_range _, ?_, ?_⟩
  · intro fuel hf
    rw [fixedUpdateLoop_eq fl PLAYER_CHARACTER em dt em.GetEntitiesSize 0 st [] fuel
      (by omega) hf]
    unfold FixedUpdate at h1
    rw [List.range_eq_range'] at h1
    rw [h1]
    simp [List.range_eq_range']
  · intro e
    exact List.mem_range
  · intro e he
    exact List.count_eq_one_of_mem (List.nodup_range _) (List.mem_range.2 he)

/-- C18 on the sample world of three entities. -/
theorem C18_FixedUpdate_total_witness :
    WellFormed sampleEntities sampleState ∧
    ∃ r, FixedUpdate asteroidFlags 1024 sampleEntities (1 / 50) sampleState = some r ∧
      fixedUpdateLoop asteroidFlags 1024 sampleEntities (1 / 50) 4 0 sampleState [] =
        LoopResult.done r [0, 1, 2] := by
  refine ⟨by decide, ?_⟩
  obtain ⟨r, visited, h1, h2, h3, -⟩ :=
    C18_FixedUpdate_total asteroidFlags 1024 sampleEntities (1 / 50) sampleState (by decide)
  refine ⟨r, h1, ?_⟩
  rw [h2 4 (by decide), h3]
  rfl

/-- With any float arithmetic, the loop iteration of an entity that is no player changes
nothing. -/
theorem fixedUpdateEntityFloat_nonplayer (F : FloatArith) (fl : PlayerInputFlags) (m : Nat)
    (em : EntityManager)
    (dt : ℚ) (st : SimState) (e : Entity) (h : em.HasComponent e m = false) :
    fixedUpdateEntityFloat F fl m em dt st e = some st := by
  simp [fixedUpdateEntityFloat, h]

/-- With any float arithmetic, the loop iteration of a player entity writes the slots of
`playerStepFloat` and nothing else. -/
theorem fixedUpdateEntityFloat_player (F : FloatArith) (fl : PlayerInputFlags) (m : Nat)
    (em : EntityManager)
    (dt : ℚ) (st : SimState) (e : Entity) (body : Body) (pc : PlayerCharacter)
    (h : em.HasComponent e m = true) (hb : st.1.bodies_[e]? = some body)
    (hc : st.2.components_[e]? = some pc) :
    fixedUpdateEntityFloat F fl m em dt st e =
      some (⟨st.1.bodies_.set e (playerStepFloat F fl dt body pc).1⟩,
        { st.2 with
          components_ := st.2.components_.set e (playerStepFloat F fl dt body pc).2 }) := by
  have hbl : e < st.1.bodies_.length := (List.getElem?_eq_some_iff.1 hb).1
  have hcl : e < st.2.components_.length := (List.getElem?_eq_some_iff.1 hc).1
  obtain ⟨pm1, hflip, hlen, hset⟩ := flipCharacter_eq st.1 e pc.playerNumber
    (pc.input &&& fl.LEFT != 0) (pc.input &&& fl.RIGHT != 0) body hbl
  have hl1 : e < pm1.bodies_.length := by rw [hlen]; exact hbl
  unfold fixedUpdateEntityFloat
  simp only [h, Bool.true_eq_false, if_false, PhysicsManager.GetBody,
    PlayerCharacterManager.GetComponent, hb, hc, Option.some_bind, hflip]
  unfold playerStepFloat
  by_cases hi : pc.invincibilityTime > 0
  · simp only [hi, if_true, PlayerCharacterManager.SetComponent, hcl, Option.some_bind,
      PhysicsManager.SetBody, hl1, Option.map_some', hset]
  · simp only [hi, if_false, PhysicsManager.SetBody, hl1, if_true, Option.map_some', hset,
      set_of_getElem? _ _ _ hc]

/-- With any float arithmetic, one loop iteration on an entity that has both slots
returns, keeps the sizes of the arrays, rewrites the slots of that entity as
`slotStepFloat` says and keeps every other slot. -/
theorem fixedUpdateEntityFloat_slots (F : FloatArith) (fl : PlayerInputFlags) (m : Nat)
    (em : EntityManager)
    (dt : ℚ) (st : SimState) (e : Nat) (hb : e < st.1.bodies_.length)
    (hc : e < st.2.components_.length) :
    ∃ st1, fixedUpdateEntityFloat F fl m em dt st e = some st1 ∧
      st1.1.bodies_.length = st.1.bodies_.length ∧
      st1.2.components_.length = st.2.components_.length ∧
      ∀ j : Nat, slots st1 j =
        if j = e then slotStepFloat F fl m em dt e (slots st e) else slots st j := by
  by_cases h : em.HasComponent e m = true
  · obtain ⟨body, hbody⟩ : ∃ body, st.1.bodies_[e]? = some body :=
      ⟨_, List.getElem?_eq_getElem hb⟩
    obtain ⟨pc, hpc⟩ : ∃ pc, st.2.components_[e]? = some pc :=
      ⟨_, List.getElem?_eq_getElem hc⟩
    refine ⟨_, fixedUpdateEntityFloat_player F fl m em dt st e body pc h hbody hpc, by simp,
      by simp, ?_⟩
    intro j
    by_cases hj : j = e
    · subst hj
      simp [slots, slotStepFloat, h, PhysicsManager.GetBody, PlayerCharacterManager.GetComponent,
        hbody, hpc, hb, hc]
    · have hne : e ≠ j := fun h => hj h.symm
      simp [slots, hj, PhysicsManager.GetBody, PlayerCharacterManager.GetComponent,
        List.getElem?_set_ne hne]
  · rw [Bool.not_eq_true] at h
    refine ⟨st, fixedUpdateEntityFloat_nonplayer F fl m em dt st e h, rfl, rfl, ?_⟩
    intro j
    by_cases hj : j = e
    · subst hj
      simp [slotStepFloat, h]
    · simp [hj]

/-- With any float arithmetic, the first `n` iterations of the loop on a well-formed
state return, keep the sizes of the arrays, rewrite the slots of the entities below `n`
as `slotStepFloat` says and keep every other slot. -/
theorem foldlM_range_slotsFloat (F : FloatArith) (fl : PlayerInputFlags) (m : Nat)
    (em : EntityManager) (dt : ℚ)
    (st : SimState) (hwf : WellFormed em st) (n : Nat) (hn : n ≤ em.GetEntitiesSize) :
    ∃ st1, (List.range n).foldlM (fixedUpdateEntityFloat F fl m em dt) st = some st1 ∧
      st1.1.bodies_.length = st.1.bodies_.length ∧
      st1.2.components_.length = st.2.components_.length ∧
      ∀ j : Nat, slots st1 j =
        if j < n then slotStepFloat F fl m em dt j (slots st j) else slots st j := by
  induction n with
  | zero => exact ⟨st, rfl, rfl, rfl, fun j => by simp⟩
  | succ n ih =>
    obtain ⟨st1, h1, hl1, hl2, hs1⟩ := ih (by omega)
    obtain ⟨hw1, hw2⟩ := hwf
    obtain ⟨st2, h2, hl3, hl4, hs2⟩ := fixedUpdateEntityFloat_slots F fl m em dt st1 n
      (by omega) (by omega)
    refine ⟨st2, ?_, by omega, by omega, ?_⟩
    · rw [List.range_succ, List.foldlM_append, h1]
      simp [h2]
    · intro j
      rw [hs2 j]
      by_cases hj : j = n
      · subst hj
        simp [hs1 j]
      · have : (j < n + 1) = (j < n) := by
          apply propext
          omega
        simp only [hj, if_false, hs1 j, this]

/-- With any float arithmetic, `FixedUpdate` returns on a well-formed state, keeps the
sizes of the arrays, and leaves in the slots of every entity what `slotStepFloat` says. -/
theorem FixedUpdateFloat_slots (F : FloatArith) (fl : PlayerInputFlags) (m : Nat)
    (em : EntityManager) (dt : ℚ)
    (st : SimState) (hwf : WellFormed em st) :
    ∃ st1, FixedUpdateFloat F fl m em dt st = some st1 ∧
      st1.1.bodies_.length = st.1.bodies_.length ∧
      st1.2.components_.length = st.2.components_.length ∧
      ∀ j : Nat, slots st1 j = slotStepFloat F fl m em dt j (slots st j) := by
  obtain ⟨st1, h1, hl1, hl2, hs⟩ :=
    foldlM_range_slotsFloat F fl m em dt st hwf em.GetEntitiesSize (le_refl _)
  refine ⟨st1, h1, hl1, hl2, ?_⟩
  intro j
  rw [hs j]
  by_cases hj : j < em.GetEntitiesSize
  · simp [hj]
  · simp [hj, slotStepFloat, HasComponent_of_size_le em j m (by omega)]

/-- The integer within half a unit of `x` is what `roundHalfEven` returns. -/
theorem roundHalfEven_eq (x : ℚ) (n : ℤ) (h1 : (n : ℚ) - 1 / 2 < x) (h2 : x < n + 1 / 2) :
    roundHalfEven x = n := by
  unfold roundHalfEven
  by_cases hx : (n : ℚ) ≤ x
  · have hf : ⌊x⌋ = n := Int.floor_eq_iff.2 ⟨hx, by linarith⟩
    rw [hf]
    have h3 : x - n < 1 / 2 := by linarith
    rw [if_pos h3]
  · have hf : ⌊x⌋ = n - 1 :=
      Int.floor_eq_iff.2 ⟨by push_cast; linarith, by push_cast; linarith⟩
    rw [hf]
    have h3 : ¬ (x - ((n - 1 : ℤ) : ℚ) < 1 / 2) := by push_cast; linarith
    have h4 : 1 / 2 < x - ((n - 1 : ℤ) : ℚ) := by push_cast; linarith
    rw [if_neg h3, if_pos h4]
    omega

/-- The binade of a value between `2 ^ e` and `2 ^ (e + 1)` in the normal range. -/
theorem binary32Exponent_eq (x : ℚ) (e : ℤ) (h1 : (2 : ℚ) ^ e ≤ |x|)
    (h2 : |x| < 2 ^ (e + 1)) (h3 : -126 ≤ e) : binary32Exponent x = e := by
  unfold binary32Exponent
  have hpos : 0 < |x| := lt_of_lt_of_le (by positivity) h1
  have ha : e ≤ Int.log 2 |x| :=
    (Int.zpow_le_iff_le_log (by norm_num) hpos).1 (by exact_mod_cast h1)
  have hb : Int.log 2 |x| < e + 1 :=
    (Int.lt_zpow_iff_log_lt (by norm_num) hpos).1 (by exact_mod_cast h2)
  omega

/-- Rounding to binary32 a value of the binade `e` that lies within half a spacing of
the multiple `n` of the spacing. -/
theorem roundBinary32_eq (x : ℚ) (e n : ℤ) (h1 : (2 : ℚ) ^ e ≤ |x|) (h2 : |x| < 2 ^ (e + 1))
    (h3 : -126 ≤ e) (h4 : (n : ℚ) - 1 / 2 < x / 2 ^ (e - 23))
    (h5 : x / 2 ^ (e - 23) < n + 1 / 2) : roundBinary32 x = n * 2 ^ (e - 23) := by
  unfold roundBinary32
  rw [binary32Exponent_eq x e h1 h2 h3, roundHalfEven_eq _ n h4 h5]

/-- In binary32, `1.0f - 2^-30` is `1.0f`. -/
theorem roundBinary32_one_sub_small : roundBinary32 (1 - 1 / 2 ^ 30) = 1 := by
  rw [roundBinary32_eq (1 - 1 / 2 ^ 30) (-1) (2 ^ 24) (by norm_num [abs_of_pos])
    (by norm_num [abs_of_pos]) (by norm_num) (by norm_num) (by norm_num)]
  norm_num

/-- In binary32, `1.0f - 0.02f` is `2055209 / 2097152`. -/
theorem roundBinary32_one_sub_fiftieth :
    roundBinary32 (1 - dtFiftieth) = 2055209 / 2097152 := by
  unfold dtFiftieth
  rw [roundBinary32_eq (1 - 5368709 / 268435456) (-1) 16441672 (by norm_num [abs_of_pos])
    (by norm_num [abs_of_pos]) (by norm_num) (by norm_num) (by norm_num)]
  norm_num

/-- With exact arithmetic the float embedding of `FixedUpdate` is `FixedUpdate`. -/
theorem FixedUpdateFloat_exact (fl : PlayerInputFlags) (m : Nat) (em : EntityManager)
    (dt : ℚ) (st : SimState) :
    FixedUpdateFloat exactArith fl m em dt st = FixedUpdate fl m em dt st := rfl

/-- With any float arithmetic, `FixedUpdate` returns on a well-formed state and leaves in
the slots of a player entity the body and the component of `playerStepFloat`. -/
theorem FixedUpdateFloat_player (F : FloatArith) (fl : PlayerInputFlags) (m : Nat)
    (em : EntityManager) (dt : ℚ) (st : SimState) (e : Nat) (body : Body)
    (pc : PlayerCharacter) (hwf : WellFormed em st) (he : em.HasComponent e m = true)
    (hb : st.1.GetBody e = some body) (hc : st.2.GetComponent e = some pc) :
    ∃ st1, FixedUpdateFloat F fl m em dt st = some st1 ∧
      st1.1.GetBody e = some (playerStepFloat F fl dt body pc).1 ∧
      st1.2.GetComponent e = some (playerStepFloat F fl dt body pc).2 := by
  obtain ⟨st1, h1, -, -, hs⟩ := FixedUpdateFloat_slots F fl m em dt st hwf
  have h := hs e
  simp only [slots, slotStepFloat, he, if_true, hb, hc, Prod.mk.injEq] at h
  exact ⟨st1, h1, h.1, h.2⟩

/-- C11, refuted as stated: in the sample world the invincible player at entity 1 has
invincibilityTime 1 (the float `1.0f`); with `dt` the float `2^-30` and the binary32
subtraction of line 91, `FixedUpdate` returns and leaves invincibilityTime 1, which is
not the old value minus `dt`. -/
theorem C11_exact_difference_counterexample :
    sampleState.2.GetComponent 1 = some ⟨4, 2, 1⟩ ∧
    ∃ st1 pc1, FixedUpdateFloat binary32Arith asteroidFlags 1024 sampleEntities (1 / 2 ^ 30)
        sampleState = some st1 ∧
      st1.2.GetComponent 1 = some pc1 ∧ pc1.invincibilityTime = 1 ∧
      pc1.invincibilityTime ≠ 1 - 1 / 2 ^ 30 := by
  refine ⟨rfl, ?_⟩
  obtain ⟨st1, h1, -, h3⟩ := FixedUpdateFloat_player binary32Arith asteroidFlags 1024
    sampleEntities (1 / 2 ^ 30) sampleState 1 ⟨⟨5, 5⟩, ⟨0, 0⟩, 180⟩ ⟨4, 2, 1⟩
    (by decide) (by decide) rfl rfl
  have htime : (playerStepFloat binary32Arith asteroidFlags (1 / 2 ^ 30)
      ⟨⟨5, 5⟩, ⟨0, 0⟩, 180⟩ ⟨4, 2, 1⟩).2.invincibilityTime = 1 := by
    simp only [playerStepFloat, binary32Arith]
    rw [if_pos (by norm_num)]
    exact roundBinary32_one_sub_small
  refine ⟨st1, _, h1, h3, htime, ?_⟩
  rw [htime]
  norm_num

/-- C11, amended: invincibility makes the player fall: for every player entity of a
well-formed world whose invincibilityTime is above 0, with any float arithmetic,
`FixedUpdate(dt)` returns, after it the component of the entity is the old one with its
invincibilityTime replaced by the result of the float subtraction `old - dt` of line 91
(the exact difference with exact arithmetic, the difference rounded to the nearest float
with binary32), and the velocity of its body is exactly (0, -2), whatever its input and
previous velocity. -/
theorem C11_invincible_player_falls (F : FloatArith) (fl : PlayerInputFlags)
    (PLAYER_CHARACTER : Nat) (em : EntityManager) (dt : ℚ) (st : SimState) (e : Nat)
    (body : Body) (pc : PlayerCharacter) (hwf : WellFormed em st)
    (he : em.HasComponent e PLAYER_CHARACTER = true) (hb : st.1.GetBody e = some body)
    (hc : st.2.GetComponent e = some pc) (hi : pc.invincibilityTime > 0) :
    ∃ st1 body1, FixedUpdateFloat F fl PLAYER_CHARACTER em dt st = some st1 ∧
      st1.2.GetComponent e =
        some { pc with invincibilityTime := F.sub pc.invincibilityTime dt } ∧
      st1.1.GetBody e = some body1 ∧ body1.velocity = ⟨0, -2⟩ ∧
      exactArith.sub pc.invincibilityTime dt = pc.invincibilityTime - dt ∧
      binary32Arith.sub pc.invincibilityTime dt =
        roundBinary32 (pc.invincibilityTime - dt) := by
  obtain ⟨st1, h1, h2, h3⟩ :=
    FixedUpdateFloat_player F fl PLAYER_CHARACTER em dt st e body pc hwf he hb hc
  refine ⟨st1, _, h1, ?_, h2, ?_, rfl, rfl⟩
  · rw [h3]
    simp [playerStepFloat, hi]
  · simp [playerStepFloat, hi]

/-- C11, amended, on the sample world with binary32 arithmetic and `dt` the float
`0.02f`: the invincible player at entity 1 ends with invincibilityTime
`2055209 / 2097152` and velocity (0, -2). -/
theorem C11_invincible_player_falls_witness :
    ∃ st1 body1, FixedUpdateFloat binary32Arith asteroidFlags 1024 sampleEntities dtFiftieth
        sampleState = some st1 ∧
      st1.2.GetComponent 1 = some { input := 4, playerNumber := 2,
                                    invincibilityTime := 2055209 / 2097152 } ∧
      st1.1.GetBody 1 = some body1 ∧ body1.velocity = ⟨0, -2⟩ := by
  obtain ⟨st1, body1, h1, h2, h3, h4, -, h6⟩ :=
    C11_invincible_player_falls binary32Arith asteroidFlags 1024 sampleEntities dtFiftieth
      sampleState 1 ⟨⟨5, 5⟩, ⟨0, 0⟩, 180⟩ ⟨4, 2, 1⟩ (by decide) (by decide) rfl rfl
      (by norm_num)
  refine ⟨st1, body1, h1, ?_, h3, h4⟩
  rw [h2, h6, roundBinary32_one_sub_fiftieth]

end Neko
